import Mathlib

/-!
Verification development for the VLTL-Bench LTL dataset generator
(`dataset_generators/LTL_dataset_generator.py`).

The Python source is shallowly embedded: Python strings are Lean `String`
(character-level operations work on `List Char` via `String.toList`),
Python lists are Lean `List`, Python dicts (which preserve insertion
order) are association lists `List (key × value)`, and Python exceptions
are modelled with `Except`/`Option`.  Randomness (`random.choice`,
`random.sample`, ...) and the NLTK services (tokenizer, POS tagger,
lemmatizer, detokenizer) are modelled as explicit oracle parameters, so
every embedded function is a deterministic function of its inputs and
those oracles.
-/

namespace VLTL

/-! ## Python string helpers -/

/-- Python `str.lower()` (the generator only manipulates ASCII text). -/
def pyLower (s : String) : String := String.mk (s.toList.map Char.toLower)

/-- Python `str.capitalize()`: first character upper-cased, the rest lower-cased. -/
def pyCapitalize (s : String) : String :=
  match s.toList with
  | [] => ""
  | c :: cs => String.mk (c.toUpper :: cs.map Char.toLower)

/-- Split a character list at spaces, keeping empty pieces. -/
def splitSpaceAux : List Char → List Char → List String
  | [], acc => [String.mk acc.reverse]
  | ch :: cs, acc =>
    if ch = ' ' then String.mk acc.reverse :: splitSpaceAux cs []
    else splitSpaceAux cs (ch :: acc)

/-- Python `str.split()` with no argument: split on whitespace, dropping
empty pieces.  The generator only ever produces single-space separators. -/
def pySplitWS (s : String) : List String :=
  (splitSpaceAux s.toList []).filter (fun t => t ≠ "")

/-- Python `" ".join(...)`. -/
def joinSpace : List String → String
  | [] => ""
  | [s] => s
  | s :: rest => s ++ " " ++ joinSpace rest

/-- Python `",".join(...)`. -/
def joinComma : List String → String
  | [] => ""
  | [s] => s
  | s :: rest => s ++ "," ++ joinComma rest

/-- Python `s.endswith(suffix)`. -/
def pyEndsWith (s suffix : String) : Bool := suffix.toList.isSuffixOf s.toList

/-- Python `needle in hay` on strings: substring test. -/
def pyIn (needle hay : String) : Bool := decide (needle.toList <:+: hay.toList)

/-- The characters of Python `string.punctuation`. -/
def PUNCT_CHARS : List Char :=
  "!\"#$%&\x27()*+,-./:;<=>?@[\\]^_\x60\x7b|\x7d~".toList

/-- Python `string.punctuation` as a string (used with substring tests). -/
def PUNCT_STR : String := String.mk PUNCT_CHARS

/-- Python `s.rstrip(string.punctuation)`: drop trailing punctuation characters. -/
def pyRstripPunct (s : String) : String :=
  String.mk ((s.toList.reverse.dropWhile (fun c => PUNCT_CHARS.contains c)).reverse)

/-- Python `re.sub(r"[^a-zA-Z]", "", s)`. -/
def stripNonAlpha (s : String) : String := String.mk (s.toList.filter Char.isAlpha)

/-- The regular expression `^prop_\d+$` from `_PLACEHOLDER_RE`. -/
def isPlaceholderTok (s : String) : Bool :=
  match s.toList with
  | 'p' :: 'r' :: 'o' :: 'p' :: '_' :: rest => !rest.isEmpty && rest.all Char.isDigit
  | _ => false

/-- The placeholder token `prop_{i}`. -/
def placeholder (i : Nat) : String := "prop_" ++ toString i

/-! ## `_to_gerund` (source lines 94-101) -/

/-- The vowels of the `[aeiou]` character class. -/
def VOWELS : List Char := ['a', 'e', 'i', 'o', 'u']

/-- The characters of the `[^aeiouywx]` complement class. -/
def NOT_SECOND : List Char := ['a', 'e', 'i', 'o', 'u', 'y', 'w', 'x']

/-- `re.match(r"[aeiou][^aeiouywx]$", word[-2:])`: the last two characters
are a vowel followed by a consonant other than `y`, `w`, `x`. -/
def cvcTail (w : List Char) : Bool :=
  match w.drop (w.length - 2) with
  | [c1, c2] => VOWELS.contains c1 && !(NOT_SECOND.contains c2)
  | _ => false

/-- `_to_gerund`, on a word given as its character list. -/
def toGerund (w : List Char) : List Char :=
  if ['i', 'e'].isSuffixOf w then w.dropLast.dropLast ++ ['y', 'i', 'n', 'g']
  else if ['e'].isSuffixOf w && !(['e', 'e'].isSuffixOf w) then w.dropLast ++ ['i', 'n', 'g']
  else if 2 < w.length && cvcTail w then w ++ ['i', 'n', 'g']
  else w ++ ['i', 'n', 'g']

/-- `_to_gerund` on `String`s. -/
def toGerundS (s : String) : String := String.mk (toGerund s.toList)

/-- The three-case description of `_to_gerund` from the claim: `-ie` words map
to `stem + "ying"`, `-e` (but not `-ee`) words drop the `e`, everything else
just appends `"ing"`. -/
def gerundSpec (w : List Char) : List Char :=
  if ['i', 'e'].isSuffixOf w then w.dropLast.dropLast ++ ['y', 'i', 'n', 'g']
  else if ['e'].isSuffixOf w && !(['e', 'e'].isSuffixOf w) then w.dropLast ++ ['i', 'n', 'g']
  else w ++ ['i', 'n', 'g']

end VLTL

namespace VLTL

/-- C9: `_to_gerund` is total (it is a Lean function), agrees with the
three-case description (in particular the consonant-vowel-consonant branch
coincides with the default branch, so final consonants are never doubled),
and its result always ends in `"ing"`. -/
theorem c9_to_gerund (w : List Char) :
    toGerund w = gerundSpec w ∧ ['i', 'n', 'g'] <:+ toGerund w := by
  constructor
  · unfold toGerund gerundSpec
    split_ifs <;> rfl
  · unfold toGerund
    split_ifs
    · exact ⟨w.dropLast.dropLast ++ ['y'], by simp⟩
    · exact ⟨w.dropLast, by simp⟩
    · exact ⟨w, by simp⟩
    · exact ⟨w, by simp⟩

/-- Evaluation of C9 on the claim examples: "stop" is turned into "stoping"
(no consonant doubling), "tie" into "tying", "leave" into "leaving". -/
theorem c9_examples :
    toGerundS "stop" = "stoping" ∧ toGerundS "tie" = "tying" ∧
      toGerundS "leave" = "leaving" := by
  refine ⟨?_, ?_, ?_⟩ <;> rfl

end VLTL

namespace VLTL

/-! ## LTL formulas and trace semantics

The generator stores traces as finite lists of "moments", each moment the
list of atoms true at that moment; the spec fixes the convention that a
trace repeats its last moment forever and that absent atoms are false.
-/

/-- LTL formula syntax over atoms of type `α`. -/
inductive LTLF (α : Type) where
  | atom : α → LTLF α
  | lnot : LTLF α → LTLF α
  | land : LTLF α → LTLF α → LTLF α
  | lor : LTLF α → LTLF α → LTLF α
  | limp : LTLF α → LTLF α → LTLF α
  | liff : LTLF α → LTLF α → LTLF α
  | lnext : LTLF α → LTLF α
  | lfin : LTLF α → LTLF α
  | lglob : LTLF α → LTLF α
  | luntil : LTLF α → LTLF α → LTLF α
  deriving DecidableEq, Repr

variable {α β : Type}

/-- Standard LTL satisfaction over an infinite word `σ` at position `i`. -/
def Sat (σ : Nat → List α) : Nat → LTLF α → Prop
  | i, .atom a => a ∈ σ i
  | i, .lnot φ => ¬ Sat σ i φ
  | i, .land φ ψ => Sat σ i φ ∧ Sat σ i ψ
  | i, .lor φ ψ => Sat σ i φ ∨ Sat σ i ψ
  | i, .limp φ ψ => Sat σ i φ → Sat σ i ψ
  | i, .liff φ ψ => (Sat σ i φ ↔ Sat σ i ψ)
  | i, .lnext φ => Sat σ (i + 1) φ
  | i, .lfin φ => ∃ j, i ≤ j ∧ Sat σ j φ
  | i, .lglob φ => ∀ j, i ≤ j → Sat σ j φ
  | i, .luntil φ ψ => ∃ j, i ≤ j ∧ Sat σ j ψ ∧ ∀ k, i ≤ k → k < j → Sat σ k φ

/-- The infinite word denoted by a finite trace: the last moment repeats
forever (an empty trace denotes the empty moment forever). -/
def extendTr (tr : List (List α)) (i : Nat) : List α :=
  tr.getD (min i (tr.length - 1)) []

/-- Bounded evaluator for `Sat` on the infinite extension of a finite
trace: since all positions from `tr.length - 1` on look identical, all
temporal quantifiers can be clamped to `[0, tr.length)`. -/
def evalB [DecidableEq α] (tr : List (List α)) : LTLF α → Nat → Bool
  | .atom a, i => decide (a ∈ extendTr tr i)
  | .lnot φ, i => !evalB tr φ i
  | .land φ ψ, i => evalB tr φ i && evalB tr ψ i
  | .lor φ ψ, i => evalB tr φ i || evalB tr ψ i
  | .limp φ ψ, i => !evalB tr φ i || evalB tr ψ i
  | .liff φ ψ, i => evalB tr φ i == evalB tr ψ i
  | .lnext φ, i => evalB tr φ (min (i + 1) (tr.length - 1))
  | .lfin φ, i => (List.range tr.length).any fun j =>
      decide (min i (tr.length - 1) ≤ j) && evalB tr φ j
  | .lglob φ, i => (List.range tr.length).all fun j =>
      !decide (min i (tr.length - 1) ≤ j) || evalB tr φ j
  | .luntil φ ψ, i => (List.range tr.length).any fun j =>
      decide (min i (tr.length - 1) ≤ j) && evalB tr ψ j &&
        ((List.range tr.length).all fun k =>
          !decide (min i (tr.length - 1) ≤ k ∧ k < j) || evalB tr φ k)

/-- On a word whose suffix from `m` on is constant, satisfaction at any two
positions `≥ m` coincides. -/
theorem Sat_shift (σ : Nat → List α) (m : Nat) (hσ : ∀ p, m ≤ p → σ p = σ m) :
    ∀ (φ : LTLF α) (i j : Nat), m ≤ i → m ≤ j → (Sat σ i φ ↔ Sat σ j φ) := by
  intro φ
  induction φ with
  | atom a =>
    intro i j hi hj
    simp only [Sat]
    rw [hσ i hi, hσ j hj]
  | lnot φ ih =>
    intro i j hi hj
    simp only [Sat]
    exact not_congr (ih i j hi hj)
  | land φ ψ ihφ ihψ =>
    intro i j hi hj
    simp only [Sat]
    exact and_congr (ihφ i j hi hj) (ihψ i j hi hj)
  | lor φ ψ ihφ ihψ =>
    intro i j hi hj
    simp only [Sat]
    exact or_congr (ihφ i j hi hj) (ihψ i j hi hj)
  | limp φ ψ ihφ ihψ =>
    intro i j hi hj
    simp only [Sat]
    exact imp_congr (ihφ i j hi hj) (ihψ i j hi hj)
  | liff φ ψ ihφ ihψ =>
    intro i j hi hj
    simp only [Sat]
    rw [ihφ i j hi hj, ihψ i j hi hj]
  | lnext φ ih =>
    intro i j hi hj
    simp only [Sat]
    exact ih (i + 1) (j + 1) (le_trans hi (Nat.le_succ i)) (le_trans hj (Nat.le_succ j))
  | lfin φ ih =>
    intro i j hi hj
    simp only [Sat]
    constructor
    · rintro ⟨w, hw, h⟩
      exact ⟨j, le_rfl, (ih w j (le_trans hi hw) hj).mp h⟩
    · rintro ⟨w, hw, h⟩
      exact ⟨i, le_rfl, (ih w i (le_trans hj hw) hi).mp h⟩
  | lglob φ ih =>
    intro i j hi hj
    simp only [Sat]
    constructor
    · intro H k hk
      exact (ih i k hi (le_trans hj hk)).mp (H i le_rfl)
    · intro H k hk
      exact (ih j k hj (le_trans hi hk)).mp (H j le_rfl)
  | luntil φ ψ ihφ ihψ =>
    intro i j hi hj
    simp only [Sat]
    constructor
    · rintro ⟨w, hw, hψw, -⟩
      exact ⟨j, le_rfl, (ihψ w j (le_trans hi hw) hj).mp hψw, fun k h1 h2 => absurd h1 (by omega)⟩
    · rintro ⟨w, hw, hψw, -⟩
      exact ⟨i, le_rfl, (ihψ w i (le_trans hj hw) hi).mp hψw, fun k h1 h2 => absurd h1 (by omega)⟩

/-- Satisfaction on such a word only depends on the position clamped to `m`. -/
theorem Sat_clamp (σ : Nat → List α) (m : Nat) (hσ : ∀ p, m ≤ p → σ p = σ m)
    (φ : LTLF α) (i : Nat) : Sat σ i φ ↔ Sat σ (min i m) φ := by
  rcases le_total i m with h | h
  · rw [Nat.min_eq_left h]
  · rw [Nat.min_eq_right h]
    exact Sat_shift σ m hσ φ i m h le_rfl

/-- The extension of a finite trace is constant from `tr.length - 1` on. -/
theorem extendTr_const (tr : List (List α)) :
    ∀ p, tr.length - 1 ≤ p → extendTr tr p = extendTr tr (tr.length - 1) := by
  intro p hp
  unfold extendTr
  rw [Nat.min_eq_right hp, Nat.min_self]

/-- Correctness of the bounded evaluator on nonempty traces. -/
theorem evalB_correct [DecidableEq α] (tr : List (List α)) (htr : tr ≠ []) :
    ∀ (φ : LTLF α) (i : Nat), evalB tr φ i = true ↔ Sat (extendTr tr) i φ := by
  have h0 : 0 < tr.length := List.length_pos.mpr htr
  have hlen : tr.length - 1 + 1 = tr.length := Nat.succ_pred_eq_of_pos h0
  set m := tr.length - 1 with hm
  have hσ := extendTr_const tr
  rw [← hm] at hσ
  have hshift := Sat_shift (extendTr tr) m hσ
  have hclamp := Sat_clamp (extendTr tr) m hσ
  intro φ
  induction φ with
  | atom a =>
    intro i
    simp only [evalB, Sat, decide_eq_true_eq]
  | lnot φ ih =>
    intro i
    simp only [evalB, Sat, ← ih i]
    cases h : evalB tr φ i <;> simp
  | land φ ψ ihφ ihψ =>
    intro i
    simp only [evalB, Sat, ← ihφ i, ← ihψ i, Bool.and_eq_true]
  | lor φ ψ ihφ ihψ =>
    intro i
    simp only [evalB, Sat, ← ihφ i, ← ihψ i, Bool.or_eq_true]
  | limp φ ψ ihφ ihψ =>
    intro i
    simp only [evalB, Sat, ← ihφ i, ← ihψ i]
    cases h1 : evalB tr φ i <;> cases h2 : evalB tr ψ i <;> simp
  | liff φ ψ ihφ ihψ =>
    intro i
    simp only [evalB, Sat, ← ihφ i, ← ihψ i]
    cases h1 : evalB tr φ i <;> cases h2 : evalB tr ψ i <;> simp
  | lnext φ ih =>
    intro i
    simp only [evalB, Sat, ih, ← hm]
    exact (hclamp φ (i + 1)).symm
  | lfin φ ih =>
    intro i
    simp only [evalB, Sat, List.any_eq_true, List.mem_range, Bool.and_eq_true,
      decide_eq_true_eq, ih, ← hm]
    constructor
    · rintro ⟨j, hjlen, hij, hs⟩
      rcases le_total i m with hi | hi
      · exact ⟨j, le_trans (by rw [Nat.min_eq_left hi]) hij, hs⟩
      · refine ⟨i, le_rfl, ?_⟩
        rw [Nat.min_eq_right hi] at hij
        exact (hshift φ j i (hij) hi).mp hs
    · rintro ⟨k, hik, hs⟩
      rcases Nat.lt_or_ge k tr.length with hk | hk
      · exact ⟨k, hk, le_trans (Nat.min_le_left i m) hik, hs⟩
      · refine ⟨m, by omega, Nat.min_le_right i m, ?_⟩
        exact (hshift φ k m (by omega) le_rfl).mp hs
  | lglob φ ih =>
    intro i
    simp only [evalB, Sat, List.all_eq_true, List.mem_range, Bool.or_eq_true,
      Bool.not_eq_true', decide_eq_false_iff_not, ih, ← hm]
    constructor
    · intro H k hik
      rcases Nat.lt_or_ge k tr.length with hk | hk
      · rcases H k hk with h | h
        · exact absurd (le_trans (Nat.min_le_left i m) hik) h
        · exact h
      · have hsm : Sat (extendTr tr) m φ := by
          rcases H m (by omega) with h | h
          · exact absurd (Nat.min_le_right i m) h
          · exact h
        exact (hshift φ m k le_rfl (by omega)).mp hsm
    · intro H j hjlen
      by_cases hij : min i m ≤ j
      · right
        rcases le_total i m with hi | hi
        · exact H j (by rw [Nat.min_eq_left hi] at hij; exact hij)
        · exact (hshift φ i j hi (by rw [Nat.min_eq_right hi] at hij; exact hij)).mp (H i le_rfl)
      · exact Or.inl hij
  | luntil φ ψ ihφ ihψ =>
    intro i
    simp only [evalB, Sat, List.any_eq_true, List.all_eq_true, List.mem_range,
      Bool.and_eq_true, Bool.or_eq_true, Bool.not_eq_true', decide_eq_false_iff_not,
      decide_eq_true_eq, ihφ, ihψ, ← hm]
    constructor
    · rintro ⟨j, hjlen, ⟨hij, hψj⟩, hall⟩
      rcases le_total i m with hi | hi
      · rw [Nat.min_eq_left hi] at hij hall
        refine ⟨j, hij, hψj, fun k h1 h2 => ?_⟩
        rcases hall k (by omega) with h | h
        · exact absurd ⟨h1, h2⟩ h
        · exact h
      · rw [Nat.min_eq_right hi] at hij hall
        have hj : j = m := by omega
        subst hj
        refine ⟨i, le_rfl, (hshift ψ m i le_rfl hi).mp hψj, fun k h1 h2 => ?_⟩
        omega
    · rintro ⟨w, hiw, hψw, hφ⟩
      rcases le_total i m with hi | hi
      · rcases Nat.lt_or_ge w tr.length with hw | hw
        · refine ⟨w, hw, ⟨by rw [Nat.min_eq_left hi]; exact hiw, hψw⟩, fun k hk => ?_⟩
          by_cases hcond : min i m ≤ k ∧ k < w
          · rw [Nat.min_eq_left hi] at hcond
            exact Or.inr (hφ k hcond.1 hcond.2)
          · exact Or.inl hcond
        · refine ⟨m, by omega, ⟨by rw [Nat.min_eq_left hi]; exact hi,
            (hshift ψ w m (by omega) le_rfl).mp hψw⟩, fun k hk => ?_⟩
          by_cases hcond : min i m ≤ k ∧ k < m
          · rw [Nat.min_eq_left hi] at hcond
            exact Or.inr (hφ k hcond.1 (by omega))
          · exact Or.inl hcond
      · have hw : m ≤ w := le_trans hi hiw
        refine ⟨m, by omega, ⟨Nat.min_le_right i m,
          (hshift ψ w m hw le_rfl).mp hψw⟩, fun k hk => ?_⟩
        left
        rw [Nat.min_eq_right hi]
        omega

end VLTL

namespace VLTL

variable {α β : Type}

/-- Rename the atoms of a formula. -/
def mapF (f : α → β) : LTLF α → LTLF β
  | .atom a => .atom (f a)
  | .lnot φ => .lnot (mapF f φ)
  | .land φ ψ => .land (mapF f φ) (mapF f ψ)
  | .lor φ ψ => .lor (mapF f φ) (mapF f ψ)
  | .limp φ ψ => .limp (mapF f φ) (mapF f ψ)
  | .liff φ ψ => .liff (mapF f φ) (mapF f ψ)
  | .lnext φ => .lnext (mapF f φ)
  | .lfin φ => .lfin (mapF f φ)
  | .lglob φ => .lglob (mapF f φ)
  | .luntil φ ψ => .luntil (mapF f φ) (mapF f ψ)

/-- The atoms occurring in a formula. -/
def atomsF : LTLF α → List α
  | .atom a => [a]
  | .lnot φ => atomsF φ
  | .land φ ψ => atomsF φ ++ atomsF ψ
  | .lor φ ψ => atomsF φ ++ atomsF ψ
  | .limp φ ψ => atomsF φ ++ atomsF ψ
  | .liff φ ψ => atomsF φ ++ atomsF ψ
  | .lnext φ => atomsF φ
  | .lfin φ => atomsF φ
  | .lglob φ => atomsF φ
  | .luntil φ ψ => atomsF φ ++ atomsF ψ

theorem extendTr_map (f : α → β) (tr : List (List α)) (i : Nat) :
    extendTr (tr.map (List.map f)) i = (extendTr tr i).map f := by
  unfold extendTr
  rw [List.length_map]
  rcases Nat.lt_or_ge (min i (tr.length - 1)) tr.length with h | h
  · rw [List.getD_eq_getElem _ _ (by simpa using h), List.getD_eq_getElem _ _ h,
      List.getElem_map]
  · rw [List.getD_eq_default _ _ (by simpa using h), List.getD_eq_default _ _ h]
    rfl

theorem extendTr_subset (tr : List (List α)) (S : List α)
    (h : ∀ mo ∈ tr, ∀ x ∈ mo, x ∈ S) (i : Nat) :
    ∀ x ∈ extendTr tr i, x ∈ S := by
  intro x hx
  unfold extendTr at hx
  rcases Nat.lt_or_ge (min i (tr.length - 1)) tr.length with hlt | hge
  · rw [List.getD_eq_getElem _ _ hlt] at hx
    exact h _ (List.getElem_mem hlt) x hx
  · rw [List.getD_eq_default _ _ hge] at hx
    cases hx

/-- Evaluation is invariant under a renaming of atoms that is injective on a
set `S` containing all atoms of the trace and of the formula. -/
theorem evalB_mapF [DecidableEq α] [DecidableEq β] (f : α → β) (S : List α)
    (hinj : ∀ x ∈ S, ∀ y ∈ S, f x = f y → x = y)
    (tr : List (List α)) (htr : ∀ mo ∈ tr, ∀ x ∈ mo, x ∈ S) :
    ∀ φ : LTLF α, (∀ a ∈ atomsF φ, a ∈ S) →
      ∀ i, evalB (tr.map (List.map f)) (mapF f φ) i = evalB tr φ i := by
  intro φ
  induction φ with
  | atom a =>
    intro hsub i
    simp only [mapF, evalB, extendTr_map]
    apply decide_eq_decide.mpr
    constructor
    · intro hmem
      rcases List.mem_map.mp hmem with ⟨x, hx, hfx⟩
      have hxS : x ∈ S := extendTr_subset tr S htr i x hx
      have haS : a ∈ S := hsub a (by simp [atomsF])
      rw [hinj x hxS a haS hfx] at hx
      exact hx
    · intro hmem
      exact List.mem_map_of_mem f hmem
  | lnot φ ih =>
    intro hsub i
    simp only [mapF, evalB, ih hsub i]
  | land φ ψ ihφ ihψ =>
    intro hsub i
    simp only [mapF, evalB,
      ihφ (fun a ha => hsub a (List.mem_append_left _ ha)) i,
      ihψ (fun a ha => hsub a (List.mem_append_right _ ha)) i]
  | lor φ ψ ihφ ihψ =>
    intro hsub i
    simp only [mapF, evalB,
      ihφ (fun a ha => hsub a (List.mem_append_left _ ha)) i,
      ihψ (fun a ha => hsub a (List.mem_append_right _ ha)) i]
  | limp φ ψ ihφ ihψ =>
    intro hsub i
    simp only [mapF, evalB,
      ihφ (fun a ha => hsub a (List.mem_append_left _ ha)) i,
      ihψ (fun a ha => hsub a (List.mem_append_right _ ha)) i]
  | liff φ ψ ihφ ihψ =>
    intro hsub i
    simp only [mapF, evalB,
      ihφ (fun a ha => hsub a (List.mem_append_left _ ha)) i,
      ihψ (fun a ha => hsub a (List.mem_append_right _ ha)) i]
  | lnext φ ih =>
    intro hsub i
    simp only [mapF, evalB, List.length_map, ih hsub]
  | lfin φ ih =>
    intro hsub i
    simp only [mapF, evalB, List.length_map]
    congr 1
    funext j
    rw [ih hsub j]
  | lglob φ ih =>
    intro hsub i
    simp only [mapF, evalB, List.length_map]
    congr 1
    funext j
    rw [ih hsub j]
  | luntil φ ψ ihφ ihψ =>
    intro hsub i
    simp only [mapF, evalB, List.length_map]
    congr 1
    funext j
    rw [ihψ (fun a ha => hsub a (List.mem_append_right _ ha)) j]
    congr 2
    funext k
    rw [ihφ (fun a ha => hsub a (List.mem_append_left _ ha)) k]

end VLTL

namespace VLTL

/-! ## The skeleton catalog (`LTL_TEMPLATES_STATE`, source lines 108-117 and
442-593 after the `extend` at line 637) -/

/-- A token of a skeleton template: either a literal token or a hole for the
`i`-th proposition argument (`P[i]` in the Python lambdas). -/
inductive STok where
  | lit : String → STok
  | hole : Nat → STok
  deriving DecidableEq, Repr

/-- Apply a skeleton template to an argument list (`skeleton(P)` in the
source; the lambdas index into `P`). -/
def instTokens (sk : List STok) (args : List String) : List String :=
  sk.map fun t =>
    match t with
    | .lit s => s
    | .hole j => args.getD j ""

/-- `LTL_TEMPLATES_STATE` after the `extend` at source line 637: the base
eight skeletons followed by `ADDITIONAL_LTL_TEMPLATES_STATE`.  Each entry is
(name, arity, token template); holes stand for the proposition arguments. -/
def LTL_TEMPLATES_STATE : List (String × Nat × List STok) := [
  ("F_NOT", 1, [STok.lit "finally", STok.lit "(", STok.lit "not", STok.hole 0, STok.lit ")"]),
  ("G_NOT", 1, [STok.lit "globally", STok.lit "(", STok.lit "not", STok.hole 0, STok.lit ")"]),
  ("F_AND", 2, [STok.lit "finally", STok.lit "(", STok.hole 0, STok.lit "and", STok.hole 1, STok.lit ")"]),
  ("G_AND", 2, [STok.lit "globally", STok.lit "(", STok.hole 0, STok.lit "and", STok.hole 1, STok.lit ")"]),
  ("F_OR", 2, [STok.lit "finally", STok.lit "(", STok.hole 0, STok.lit "or", STok.hole 1, STok.lit ")"]),
  ("G_OR", 2, [STok.lit "globally", STok.lit "(", STok.hole 0, STok.lit "or", STok.hole 1, STok.lit ")"]),
  ("X", 1, [STok.lit "next", STok.hole 0]),
  ("U", 2, [STok.lit "(", STok.hole 0, STok.lit "until", STok.hole 1, STok.lit ")"]),
  ("G_IMPL_F", 2, [STok.lit "globally", STok.lit "(", STok.hole 0, STok.lit "implies", STok.lit "finally", STok.hole 1, STok.lit ")"]),
  ("G_NOT_AND", 2, [STok.lit "globally", STok.lit "(", STok.lit "not", STok.lit "(", STok.hole 0, STok.lit "and", STok.hole 1, STok.lit ")", STok.lit ")"]),
  ("G_IMPL_XXX", 2, [STok.lit "globally", STok.lit "(", STok.hole 0, STok.lit "implies", STok.lit "next", STok.lit "(", STok.lit "next", STok.lit "(", STok.lit "next", STok.hole 1, STok.lit ")", STok.lit ")", STok.lit ")"]),
  ("U_GF", 2, [STok.hole 0, STok.lit "until", STok.lit "(", STok.lit "globally", STok.lit "(", STok.lit "finally", STok.hole 1, STok.lit ")", STok.lit ")"]),
  ("F_B_IMPL_A_BEFORE", 2, [STok.lit "(", STok.lit "finally", STok.hole 1, STok.lit ")", STok.lit "implies", STok.lit "(", STok.lit "not", STok.hole 1, STok.lit "until", STok.lit "(", STok.hole 0, STok.lit "and", STok.lit "not", STok.hole 1, STok.lit ")", STok.lit ")"]),
  ("G_IMPL", 2, [STok.lit "globally", STok.lit "(", STok.hole 0, STok.lit "implies", STok.hole 1, STok.lit ")"]),
  ("G_AND_PAIR", 2, [STok.lit "globally", STok.lit "(", STok.hole 0, STok.lit "and", STok.hole 1, STok.lit ")"]),
  ("G_A_AND_G_B_IMPL_NOT_C", 3, [STok.lit "globally", STok.hole 0, STok.lit "and", STok.lit "globally", STok.lit "(", STok.hole 1, STok.lit "implies", STok.lit "not", STok.hole 2, STok.lit ")"]),
  ("G_IMPL_F_IMPL_GF", 3, [STok.lit "globally", STok.lit "(", STok.hole 0, STok.lit "implies", STok.lit "finally", STok.hole 1, STok.lit ")", STok.lit "implies", STok.lit "globally", STok.lit "finally", STok.hole 2]),
  ("GF_IMPL_GF", 2, [STok.lit "globally", STok.lit "finally", STok.hole 0, STok.lit "implies", STok.lit "globally", STok.lit "finally", STok.hole 1]),
  ("GF_OR_GF", 2, [STok.lit "globally", STok.lit "finally", STok.hole 0, STok.lit "or", STok.lit "globally", STok.lit "finally", STok.hole 1]),
  ("FG_NOT", 1, [STok.lit "finally", STok.lit "globally", STok.lit "not", STok.hole 0]),
  ("G_NOT_AND_IMPL_F", 3, [STok.lit "globally", STok.lit "(", STok.lit "not", STok.lit "(", STok.hole 0, STok.lit "and", STok.hole 1, STok.lit ")", STok.lit "implies", STok.lit "finally", STok.hole 2, STok.lit ")"]),
  ("EXCLUSIVE_ALWAYS_ONE", 2, [STok.lit "globally", STok.lit "(", STok.lit "not", STok.lit "(", STok.hole 0, STok.lit "and", STok.hole 1, STok.lit ")", STok.lit ")", STok.lit "and", STok.lit "globally", STok.lit "(", STok.hole 0, STok.lit "or", STok.hole 1, STok.lit ")"]),
  ("G_EQ_IMPL_EQ", 3, [STok.lit "globally", STok.lit "(", STok.lit "(", STok.hole 0, STok.lit "double_implies", STok.hole 1, STok.lit ")", STok.lit "implies", STok.lit "(", STok.hole 1, STok.lit "double_implies", STok.hole 2, STok.lit ")", STok.lit ")"]),
  ("NOT_A_UNTIL_B", 2, [STok.lit "not", STok.hole 0, STok.lit "until", STok.hole 1]),
  ("G_A_IMPL_XG_NOT_B", 2, [STok.lit "globally", STok.lit "(", STok.hole 0, STok.lit "implies", STok.lit "next", STok.lit "globally", STok.lit "not", STok.hole 1, STok.lit ")"]),
  ("A_RELEASES_B", 2, [STok.lit "(", STok.hole 1, STok.lit "until", STok.lit "(", STok.hole 1, STok.lit "and", STok.lit "not", STok.hole 0, STok.lit ")", STok.lit ")", STok.lit "or", STok.lit "globally", STok.hole 1]),
  ("G_NOT_AND_ALT", 2, [STok.lit "globally", STok.lit "not", STok.lit "(", STok.hole 0, STok.lit "and", STok.hole 1, STok.lit ")"]),
  ("TWO_STEP_TRIGGER", 3, [STok.lit "globally", STok.lit "(", STok.hole 0, STok.lit "and", STok.lit "next", STok.hole 1, STok.lit "implies", STok.lit "next", STok.lit "next", STok.hole 2, STok.lit ")"]),
  ("NEXT_EVENTUAL", 2, [STok.lit "globally", STok.lit "(", STok.hole 0, STok.lit "implies", STok.lit "next", STok.lit "finally", STok.hole 1, STok.lit ")"]),
  ("EVERY_FIFTH_STEP", 1, [STok.hole 0, STok.lit "and", STok.lit "globally", STok.lit "(", STok.hole 0, STok.lit "implies", STok.lit "next", STok.lit "not", STok.hole 0, STok.lit "and", STok.lit "next", STok.lit "next", STok.lit "not", STok.hole 0, STok.lit "and", STok.lit "next", STok.lit "next", STok.lit "next", STok.lit "not", STok.hole 0, STok.lit "and", STok.lit "next", STok.lit "next", STok.lit "next", STok.lit "next", STok.lit "not", STok.hole 0, STok.lit "and", STok.lit "next", STok.lit "next", STok.lit "next", STok.lit "next", STok.lit "next", STok.hole 0, STok.lit ")"]),
  ("GF_A_OR_NEXT_B", 2, [STok.lit "globally", STok.lit "finally", STok.hole 0, STok.lit "or", STok.lit "next", STok.hole 1]),
  ("G_ALWAYS_A", 1, [STok.lit "globally", STok.hole 0]),
  ("A_IMPL_B_WITHIN_1", 2, [STok.lit "globally", STok.lit "(", STok.hole 0, STok.lit "implies", STok.lit "(", STok.hole 1, STok.lit "or", STok.lit "next", STok.hole 1, STok.lit ")", STok.lit ")"]),
  ("G_ONE_OF_ABC", 3, [STok.lit "globally", STok.lit "(", STok.hole 0, STok.lit "or", STok.hole 1, STok.lit "or", STok.hole 2, STok.lit ")"]),
  ("A_IMPL_EVENTUAL_B", 2, [STok.lit "globally", STok.lit "(", STok.hole 0, STok.lit "implies", STok.lit "finally", STok.hole 1, STok.lit ")"]),
  ("ALMOST_ALWAYS_A", 1, [STok.lit "not", STok.lit "globally", STok.lit "(", STok.lit "not", STok.lit "(", STok.hole 0, STok.lit "and", STok.lit "next", STok.hole 0, STok.lit ")", STok.lit ")"]),
  ("NOT_A_AT_MOST_TWO", 1, [STok.lit "not", STok.lit "globally", STok.lit "(", STok.lit "not", STok.lit "(", STok.hole 0, STok.lit "and", STok.lit "next", STok.hole 0, STok.lit ")", STok.lit ")"]),
  ("A_EVERY_THIRD_STEP", 1, [STok.lit "globally", STok.lit "(", STok.hole 0, STok.lit "implies", STok.lit "(", STok.lit "next", STok.lit "not", STok.hole 0, STok.lit "or", STok.lit "next", STok.lit "next", STok.lit "not", STok.hole 0, STok.lit "or", STok.lit "next", STok.lit "next", STok.lit "next", STok.hole 0, STok.lit ")", STok.lit ")"]),
  ("NEXT_FOLLOW", 2, [STok.lit "globally", STok.lit "(", STok.hole 0, STok.lit "implies", STok.lit "next", STok.hole 1, STok.lit ")"]),
  ("EVENTUALLY_BOTH", 2, [STok.lit "finally", STok.lit "(", STok.hole 0, STok.lit "and", STok.hole 1, STok.lit ")"]),
  ("BOTH_EVENTUAL", 2, [STok.lit "finally", STok.hole 0, STok.lit "and", STok.lit "finally", STok.hole 1]),
  ("STEPWISE_EQUALITY", 2, [STok.lit "globally", STok.lit "(", STok.hole 0, STok.lit "double_implies", STok.lit "next", STok.hole 1, STok.lit ")"]),
  ("RESPONSE_UNTIL_OR_ALWAYS", 3, [STok.hole 1, STok.lit "implies", STok.lit "next", STok.lit "(", STok.lit "(", STok.hole 2, STok.lit "until", STok.hole 0, STok.lit ")", STok.lit "or", STok.lit "globally", STok.hole 2, STok.lit ")"]),
  ("UNTIL_OR_ALWAYS", 2, [STok.lit "(", STok.hole 0, STok.lit "until", STok.hole 1, STok.lit ")", STok.lit "or", STok.lit "globally", STok.hole 0])
]

end VLTL

namespace VLTL

variable {α : Type}

/-- The LTL formula denoted by the token template of a cataloged skeleton,
instantiated at the atoms `L` (with junk value `d` for out-of-range holes,
mirroring the `P[i]` indexing in the Python lambdas).  The readings follow
the source's own comments: unary connectives bind tightest, then `and`,
then `or`, then `until`, then `implies`. -/
def formulaOf (d : α) (key : String) (L : List α) : Option (LTLF α) :=
  let p : Nat → LTLF α := fun i => LTLF.atom (L.getD i d)
  let no : LTLF α → LTLF α := LTLF.lnot
  let an : LTLF α → LTLF α → LTLF α := LTLF.land
  let orf : LTLF α → LTLF α → LTLF α := LTLF.lor
  let im : LTLF α → LTLF α → LTLF α := LTLF.limp
  let eq2 : LTLF α → LTLF α → LTLF α := LTLF.liff
  let nx : LTLF α → LTLF α := LTLF.lnext
  let fi : LTLF α → LTLF α := LTLF.lfin
  let gl : LTLF α → LTLF α := LTLF.lglob
  let un : LTLF α → LTLF α → LTLF α := LTLF.luntil
  match key with
  | "F_NOT" => some (fi (no (p 0)))
  | "G_NOT" => some (gl (no (p 0)))
  | "F_AND" => some (fi (an (p 0) (p 1)))
  | "G_AND" => some (gl (an (p 0) (p 1)))
  | "F_OR" => some (fi (orf (p 0) (p 1)))
  | "G_OR" => some (gl (orf (p 0) (p 1)))
  | "X" => some (nx (p 0))
  | "U" => some (un (p 0) (p 1))
  | "G_IMPL_F" => some (gl (im (p 0) (fi (p 1))))
  | "G_NOT_AND" => some (gl (no (an (p 0) (p 1))))
  | "G_IMPL_XXX" => some (gl (im (p 0) (nx (nx (nx (p 1))))))
  | "U_GF" => some (un (p 0) (gl (fi (p 1))))
  | "F_B_IMPL_A_BEFORE" => some (im (fi (p 1)) (un (no (p 1)) (an (p 0) (no (p 1)))))
  | "G_IMPL" => some (gl (im (p 0) (p 1)))
  | "G_AND_PAIR" => some (gl (an (p 0) (p 1)))
  | "G_A_AND_G_B_IMPL_NOT_C" => some (an (gl (p 0)) (gl (im (p 1) (no (p 2)))))
  | "G_IMPL_F_IMPL_GF" => some (im (gl (im (p 0) (fi (p 1)))) (gl (fi (p 2))))
  | "GF_IMPL_GF" => some (im (gl (fi (p 0))) (gl (fi (p 1))))
  | "GF_OR_GF" => some (orf (gl (fi (p 0))) (gl (fi (p 1))))
  | "FG_NOT" => some (fi (gl (no (p 0))))
  | "G_NOT_AND_IMPL_F" => some (gl (im (no (an (p 0) (p 1))) (fi (p 2))))
  | "EXCLUSIVE_ALWAYS_ONE" => some (an (gl (no (an (p 0) (p 1)))) (gl (orf (p 0) (p 1))))
  | "G_EQ_IMPL_EQ" => some (gl (im (eq2 (p 0) (p 1)) (eq2 (p 1) (p 2))))
  | "NOT_A_UNTIL_B" => some (un (no (p 0)) (p 1))
  | "G_A_IMPL_XG_NOT_B" => some (gl (im (p 0) (nx (gl (no (p 1))))))
  | "A_RELEASES_B" => some (orf (un (p 1) (an (p 1) (no (p 0)))) (gl (p 1)))
  | "G_NOT_AND_ALT" => some (gl (no (an (p 0) (p 1))))
  | "TWO_STEP_TRIGGER" => some (gl (im (an (p 0) (nx (p 1))) (nx (nx (p 2)))))
  | "NEXT_EVENTUAL" => some (gl (im (p 0) (nx (fi (p 1)))))
  | "EVERY_FIFTH_STEP" => some (an (p 0) (gl (im (p 0)
      (an (nx (no (p 0))) (an (nx (nx (no (p 0)))) (an (nx (nx (nx (no (p 0)))))
        (an (nx (nx (nx (nx (no (p 0)))))) (nx (nx (nx (nx (nx (p 0)))))))))))))
  | "GF_A_OR_NEXT_B" => some (orf (gl (fi (p 0))) (nx (p 1)))
  | "G_ALWAYS_A" => some (gl (p 0))
  | "A_IMPL_B_WITHIN_1" => some (gl (im (p 0) (orf (p 1) (nx (p 1)))))
  | "G_ONE_OF_ABC" => some (gl (orf (p 0) (orf (p 1) (p 2))))
  | "A_IMPL_EVENTUAL_B" => some (gl (im (p 0) (fi (p 1))))
  | "ALMOST_ALWAYS_A" => some (no (gl (no (an (p 0) (nx (p 0))))))
  | "NOT_A_AT_MOST_TWO" => some (no (gl (no (an (p 0) (nx (p 0))))))
  | "A_EVERY_THIRD_STEP" => some (gl (im (p 0)
      (orf (nx (no (p 0))) (orf (nx (nx (no (p 0)))) (nx (nx (nx (p 0))))))))
  | "NEXT_FOLLOW" => some (gl (im (p 0) (nx (p 1))))
  | "EVENTUALLY_BOTH" => some (fi (an (p 0) (p 1)))
  | "BOTH_EVENTUAL" => some (an (fi (p 0)) (fi (p 1)))
  | "STEPWISE_EQUALITY" => some (gl (eq2 (p 0) (nx (p 1))))
  | "RESPONSE_UNTIL_OR_ALWAYS" => some (im (p 1) (nx (orf (un (p 2) (p 0)) (gl (p 2)))))
  | "UNTIL_OR_ALWAYS" => some (orf (un (p 0) (p 1)) (gl (p 0)))
  | _ => none

/-- The shared builder behind `G_NOT_AND` (the `G_NOT_AND_ALT` entry calls
`_TRACE_BUILDERS["G_NOT_AND"]`). -/
def traceGNotAnd (d : α) (L : List α) (g : Bool) : List (List α) :=
  if g then [[L.getD 0 d], [L.getD 1 d], []] else [[L.getD 0 d, L.getD 1 d]]

/-- `_TRACE_BUILDERS` (source lines 198-425): the hand-authored trace pair
builders, keyed by skeleton name.  `d` is the junk value for out-of-range
`L[i]` indexing. -/
def traceBuilders (d : α) : List (String × (List α → Bool → List (List α))) := [
  ("NOT", fun L g => if g then [[]] else [[L.getD 0 d]]),
  ("F_NOT", fun L g => if g then [[L.getD 0 d], [], []]
    else [[L.getD 0 d], [L.getD 0 d], [L.getD 0 d]]),
  ("G_NOT", fun L g => if g then [[], [], []] else [[L.getD 0 d], [], []]),
  ("X", fun L g => if g then [[], [L.getD 0 d]] else [[L.getD 0 d]]),
  ("NOT_A_UNTIL_B", fun L g => if g then [[], [], [L.getD 1 d]]
    else [[L.getD 0 d], [L.getD 0 d], [L.getD 0 d]]),
  ("F_AND", fun L g => if g then [[], [L.getD 0 d], [L.getD 0 d, L.getD 1 d]]
    else [[], [L.getD 0 d], []]),
  ("G_AND", fun L g => if g then [[L.getD 0 d, L.getD 1 d], [L.getD 0 d, L.getD 1 d],
      [L.getD 0 d, L.getD 1 d]]
    else [[L.getD 0 d], [L.getD 0 d], [L.getD 1 d]]),
  ("F_OR", fun L g => if g then [[], [L.getD 0 d]] else [[], [], []]),
  ("G_OR", fun L g => if g then [[L.getD 0 d], [L.getD 1 d], [L.getD 0 d]]
    else [[L.getD 0 d], [], []]),
  ("AND", fun L g => if g then [[L.getD 0 d, L.getD 1 d]] else [[L.getD 0 d]]),
  ("OR", fun L g => if g then [[L.getD 0 d]] else [[]]),
  ("G_IMPL_F", fun L g => if g then [[L.getD 0 d], [], [L.getD 1 d]] else [[L.getD 0 d], [], []]),
  ("G_NOT_AND", traceGNotAnd d),
  ("G_IMPL_XXX", fun L g => if g then [[L.getD 0 d], [], [], [L.getD 1 d]]
    else [[L.getD 0 d], [], [], []]),
  ("U_GF", fun L g => if g then [[L.getD 0 d], [L.getD 0 d], [L.getD 1 d]]
    else [[L.getD 0 d], [L.getD 0 d], [L.getD 0 d]]),
  ("F_B_IMPL_A_BEFORE", fun L g => if g then [[L.getD 0 d], [L.getD 1 d]] else [[L.getD 1 d]]),
  ("G_IMPL", fun L g => if g then [[L.getD 0 d, L.getD 1 d], [L.getD 1 d]]
    else [[L.getD 0 d], []]),
  ("G_AND_PAIR", fun L g => if g then [[L.getD 0 d, L.getD 1 d]] else [[L.getD 0 d], []]),
  ("G_A_AND_G_B_IMPL_NOT_C", fun L g =>
    if g then [[L.getD 0 d], [L.getD 0 d, L.getD 1 d], [L.getD 0 d]]
    else [[L.getD 0 d, L.getD 2 d]]),
  ("G_IMPL_F_IMPL_GF", fun L g => if g then [[L.getD 0 d], [L.getD 1 d, L.getD 2 d]]
    else [[L.getD 0 d], [L.getD 1 d]]),
  ("GF_IMPL_GF", fun L g => if g then [[]] else [[L.getD 0 d]]),
  ("GF_OR_GF", fun L g => if g then [[L.getD 0 d]] else [[]]),
  ("FG_NOT", fun L g => if g then [[L.getD 0 d], [], []] else [[L.getD 0 d], [], [L.getD 0 d]]),
  ("G_NOT_AND_IMPL_F", fun L g => if g then [[L.getD 0 d, L.getD 1 d]] else [[]]),
  ("EXCLUSIVE_ALWAYS_ONE", fun L g => if g then [[L.getD 0 d], [L.getD 1 d], [L.getD 0 d]]
    else [[], []]),
  ("G_EQ_IMPL_EQ", fun L g => if g then [[L.getD 0 d, L.getD 1 d, L.getD 2 d]]
    else [[L.getD 0 d, L.getD 1 d]]),
  ("G_A_IMPL_XG_NOT_B", fun L g => if g then [[L.getD 0 d], [], []]
    else [[L.getD 0 d], [], [L.getD 1 d]]),
  ("A_RELEASES_B", fun L g => if g then [[L.getD 1 d]] else [[L.getD 1 d], []]),
  ("G_NOT_AND_ALT", traceGNotAnd d),
  ("TWO_STEP_TRIGGER", fun L g => if g then [[L.getD 0 d], [L.getD 1 d], [L.getD 2 d]]
    else [[L.getD 0 d], [L.getD 1 d], []]),
  ("NEXT_EVENTUAL", fun L g => if g then [[L.getD 0 d], [], [L.getD 1 d]]
    else [[L.getD 0 d], [], []]),
  ("EVERY_FIFTH_STEP", fun L g => if g then [[L.getD 0 d], [], [], [], [], [L.getD 0 d]]
    else [[L.getD 0 d], [], [], [L.getD 0 d]]),
  ("GF_A_OR_NEXT_B", fun L g => if g then [[L.getD 0 d]] else [[], []]),
  ("G_ALWAYS_A", fun L g => if g then [[L.getD 0 d]] else [[L.getD 0 d], []]),
  ("A_IMPL_B_WITHIN_1", fun L g => if g then [[L.getD 0 d, L.getD 1 d]] else [[L.getD 0 d], []]),
  ("G_ONE_OF_ABC", fun L g => if g then [[L.getD 0 d], [L.getD 1 d], [L.getD 2 d]] else [[]]),
  ("A_IMPL_EVENTUAL_B", fun L g => if g then [[L.getD 0 d], [], [L.getD 1 d]]
    else [[L.getD 0 d], [], []]),
  ("ALMOST_ALWAYS_A", fun L g => if g then [[L.getD 0 d], [], [L.getD 0 d]]
    else [[L.getD 0 d], [], [], []]),
  ("NOT_A_AT_MOST_TWO", fun L g => if g then [[L.getD 0 d], [], [], [L.getD 0 d]]
    else [[L.getD 0 d], [], [], [], [L.getD 0 d]]),
  ("A_EVERY_THIRD_STEP", fun L g => if g then [[L.getD 0 d], [], [], [L.getD 0 d]]
    else [[L.getD 0 d], [], [L.getD 0 d]]),
  ("NEXT_FOLLOW", fun L g => if g then [[L.getD 0 d], [L.getD 1 d]] else [[L.getD 0 d], []]),
  ("EVENTUALLY_BOTH", fun L g => if g then [[L.getD 0 d, L.getD 1 d]] else [[], [], []]),
  ("BOTH_EVENTUAL", fun L g => if g then [[L.getD 0 d], [L.getD 1 d]] else [[], [], []]),
  ("STEPWISE_EQUALITY", fun L g => if g then [[L.getD 0 d], [L.getD 1 d]] else [[L.getD 0 d], []]),
  ("RESPONSE_UNTIL_OR_ALWAYS", fun L g =>
    if g then [[L.getD 1 d], [L.getD 2 d], [L.getD 2 d], [L.getD 0 d]] else [[L.getD 1 d], []]),
  ("UNTIL_OR_ALWAYS", fun L g => if g then [[L.getD 0 d], [L.getD 0 d], [L.getD 1 d]]
    else [[], []])
]

/-- `_make_traces` (source lines 427-438): the hand-authored pair when the
key is registered, otherwise the generic fallback (all labels true at moment
0 versus three empty moments). -/
def makeTraces (d : α) (key : String) (labels : List α) :
    List (List α) × List (List α) :=
  match (traceBuilders d).lookup key with
  | some b => (b labels true, b labels false)
  | none => ([labels], [[], [], []])

end VLTL

namespace VLTL

/-- Transfer an `evalB` check from canonical numeric atoms `0, ..., n-1` to
an arbitrary duplicate-free atom list `L` of length `n`, and from the
bounded evaluator to the trace semantics. -/
theorem traceCaseHelper (φP : LTLF Nat) (gP bP : List (List Nat)) (n : Nat)
    (L : List String) (hnd : L.Nodup) (hlen : L.length = n)
    (g b : List (List String)) (φ : LTLF String)
    (hg : g = gP.map (List.map fun i => L.getD i ""))
    (hb : b = bP.map (List.map fun i => L.getD i ""))
    (hφ : φ = mapF (fun i => L.getD i "") φP)
    (hφS : ∀ a ∈ atomsF φP, a < n)
    (hgS : ∀ mo ∈ gP, ∀ a ∈ mo, a < n)
    (hbS : ∀ mo ∈ bP, ∀ a ∈ mo, a < n)
    (hgne : gP ≠ []) (hbne : bP ≠ [])
    (hevg : evalB gP φP 0 = true) (hevb : evalB bP φP 0 = false) :
    Sat (extendTr g) 0 φ ∧ ¬ Sat (extendTr b) 0 φ := by
  have hinj : ∀ x ∈ List.range n, ∀ y ∈ List.range n,
      L.getD x "" = L.getD y "" → x = y := by
    intro x hx y hy hfxy
    rw [List.mem_range] at hx hy
    rw [List.getD_eq_getElem L "" (by omega), List.getD_eq_getElem L "" (by omega)] at hfxy
    exact (List.Nodup.getElem_inj_iff hnd).mp hfxy
  have hgtr : ∀ mo ∈ gP, ∀ x ∈ mo, x ∈ List.range n := by
    intro mo hmo x hx
    exact List.mem_range.mpr (hgS mo hmo x hx)
  have hbtr : ∀ mo ∈ bP, ∀ x ∈ mo, x ∈ List.range n := by
    intro mo hmo x hx
    exact List.mem_range.mpr (hbS mo hmo x hx)
  have hφtr : ∀ a ∈ atomsF φP, a ∈ List.range n := by
    intro a ha
    exact List.mem_range.mpr (hφS a ha)
  have hgne2 : g ≠ [] := by
    rw [hg]
    simpa using hgne
  have hbne2 : b ≠ [] := by
    rw [hb]
    simpa using hbne
  have heg : evalB g φ 0 = true := by
    rw [hg, hφ, evalB_mapF (fun i => L.getD i "") (List.range n) hinj gP hgtr φP hφtr 0]
    exact hevg
  have heb : evalB b φ 0 = false := by
    rw [hb, hφ, evalB_mapF (fun i => L.getD i "") (List.range n) hinj bP hbtr φP hφtr 0]
    exact hevb
  constructor
  · exact (evalB_correct g hgne2 φ 0).mp heg
  · intro hs
    have := (evalB_correct b hbne2 φ 0).mpr hs
    rw [heb] at this
    cases this

end VLTL

namespace VLTL

/-- The 36 cataloged skeleton keys whose hand-authored traces do check out
against the formula semantics (all cataloged keys with a trace builder
except the seven failing ones: X, G_A_AND_G_B_IMPL_NOT_C, A_RELEASES_B,
EVERY_FIFTH_STEP, NOT_A_AT_MOST_TWO, A_EVERY_THIRD_STEP,
STEPWISE_EQUALITY). -/
def c3Keys : List (String × Nat) := [
  ("F_NOT", 1),
  ("G_NOT", 1),
  ("F_AND", 2),
  ("G_AND", 2),
  ("F_OR", 2),
  ("G_OR", 2),
  ("G_IMPL_F", 2),
  ("G_NOT_AND", 2),
  ("G_IMPL_XXX", 2),
  ("U_GF", 2),
  ("F_B_IMPL_A_BEFORE", 2),
  ("G_IMPL", 2),
  ("G_AND_PAIR", 2),
  ("G_IMPL_F_IMPL_GF", 3),
  ("GF_IMPL_GF", 2),
  ("GF_OR_GF", 2),
  ("FG_NOT", 1),
  ("G_NOT_AND_IMPL_F", 3),
  ("EXCLUSIVE_ALWAYS_ONE", 2),
  ("G_EQ_IMPL_EQ", 3),
  ("NOT_A_UNTIL_B", 2),
  ("G_A_IMPL_XG_NOT_B", 2),
  ("G_NOT_AND_ALT", 2),
  ("TWO_STEP_TRIGGER", 3),
  ("NEXT_EVENTUAL", 2),
  ("GF_A_OR_NEXT_B", 2),
  ("G_ALWAYS_A", 1),
  ("A_IMPL_B_WITHIN_1", 2),
  ("G_ONE_OF_ABC", 3),
  ("A_IMPL_EVENTUAL_B", 2),
  ("ALMOST_ALWAYS_A", 1),
  ("NEXT_FOLLOW", 2),
  ("EVENTUALLY_BOTH", 2),
  ("BOTH_EVENTUAL", 2),
  ("RESPONSE_UNTIL_OR_ALWAYS", 3),
  ("UNTIL_OR_ALWAYS", 2)
]

/-- C3 (amended): for every cataloged skeleton key with a hand-authored
trace builder other than the seven listed in the doc comment of `c3Keys`, and
every duplicate-free atom list matching the skeleton arity, the satisfying
trace returned by `_make_traces` satisfies the skeleton formula at moment 0
under the repeat-last-moment semantics, and the violating trace falsifies
it. -/
theorem c3_amended_traces :
    ∀ kn ∈ c3Keys, ∀ L : List String, L.Nodup → L.length = kn.2 →
      ∃ φ, formulaOf "" kn.1 L = some φ ∧
        Sat (extendTr (makeTraces "" kn.1 L).1) 0 φ ∧
        ¬ Sat (extendTr (makeTraces "" kn.1 L).2) 0 φ := by
  intro kn hkn L hnd hlen
  simp only [c3Keys, List.mem_cons, List.not_mem_nil, or_false] at hkn
  rcases hkn with rfl | rfl | rfl | rfl | rfl | rfl | rfl | rfl | rfl | rfl | rfl | rfl | rfl | rfl | rfl | rfl | rfl | rfl | rfl | rfl | rfl | rfl | rfl | rfl | rfl | rfl | rfl | rfl | rfl | rfl | rfl | rfl | rfl | rfl | rfl | rfl
  · exact ⟨_, rfl, traceCaseHelper (VLTL.LTLF.lfin (VLTL.LTLF.lnot (VLTL.LTLF.atom 0)))
      [[0], [], []] [[0], [0], [0]] 1 L hnd hlen _ _ _ rfl rfl rfl (by decide) (by decide)
      (by decide) (by decide) (by decide) (by decide) (by decide)⟩
  · exact ⟨_, rfl, traceCaseHelper (VLTL.LTLF.lglob (VLTL.LTLF.lnot (VLTL.LTLF.atom 0)))
      [[], [], []] [[0], [], []] 1 L hnd hlen _ _ _ rfl rfl rfl (by decide) (by decide)
      (by decide) (by decide) (by decide) (by decide) (by decide)⟩
  · exact ⟨_, rfl, traceCaseHelper (VLTL.LTLF.lfin (VLTL.LTLF.land (VLTL.LTLF.atom 0) (VLTL.LTLF.atom 1)))
      [[], [0], [0, 1]] [[], [0], []] 2 L hnd hlen _ _ _ rfl rfl rfl (by decide) (by decide)
      (by decide) (by decide) (by decide) (by decide) (by decide)⟩
  · exact ⟨_, rfl, traceCaseHelper (VLTL.LTLF.lglob (VLTL.LTLF.land (VLTL.LTLF.atom 0) (VLTL.LTLF.atom 1)))
      [[0, 1], [0, 1], [0, 1]] [[0], [0], [1]] 2 L hnd hlen _ _ _ rfl rfl rfl (by decide) (by decide)
      (by decide) (by decide) (by decide) (by decide) (by decide)⟩
  · exact ⟨_, rfl, traceCaseHelper (VLTL.LTLF.lfin (VLTL.LTLF.lor (VLTL.LTLF.atom 0) (VLTL.LTLF.atom 1)))
      [[], [0]] [[], [], []] 2 L hnd hlen _ _ _ rfl rfl rfl (by decide) (by decide)
      (by decide) (by decide) (by decide) (by decide) (by decide)⟩
  · exact ⟨_, rfl, traceCaseHelper (VLTL.LTLF.lglob (VLTL.LTLF.lor (VLTL.LTLF.atom 0) (VLTL.LTLF.atom 1)))
      [[0], [1], [0]] [[0], [], []] 2 L hnd hlen _ _ _ rfl rfl rfl (by decide) (by decide)
      (by decide) (by decide) (by decide) (by decide) (by decide)⟩
  · exact ⟨_, rfl, traceCaseHelper (VLTL.LTLF.lglob (VLTL.LTLF.limp (VLTL.LTLF.atom 0) (VLTL.LTLF.lfin (VLTL.LTLF.atom 1))))
      [[0], [], [1]] [[0], [], []] 2 L hnd hlen _ _ _ rfl rfl rfl (by decide) (by decide)
      (by decide) (by decide) (by decide) (by decide) (by decide)⟩
  · exact ⟨_, rfl, traceCaseHelper (VLTL.LTLF.lglob (VLTL.LTLF.lnot (VLTL.LTLF.land (VLTL.LTLF.atom 0) (VLTL.LTLF.atom 1))))
      [[0], [1], []] [[0, 1]] 2 L hnd hlen _ _ _ rfl rfl rfl (by decide) (by decide)
      (by decide) (by decide) (by decide) (by decide) (by decide)⟩
  · exact ⟨_, rfl, traceCaseHelper (VLTL.LTLF.lglob (VLTL.LTLF.limp (VLTL.LTLF.atom 0) (VLTL.LTLF.lnext (VLTL.LTLF.lnext (VLTL.LTLF.lnext (VLTL.LTLF.atom 1))))))
      [[0], [], [], [1]] [[0], [], [], []] 2 L hnd hlen _ _ _ rfl rfl rfl (by decide) (by decide)
      (by decide) (by decide) (by decide) (by decide) (by decide)⟩
  · exact ⟨_, rfl, traceCaseHelper (VLTL.LTLF.luntil (VLTL.LTLF.atom 0) (VLTL.LTLF.lglob (VLTL.LTLF.lfin (VLTL.LTLF.atom 1))))
      [[0], [0], [1]] [[0], [0], [0]] 2 L hnd hlen _ _ _ rfl rfl rfl (by decide) (by decide)
      (by decide) (by decide) (by decide) (by decide) (by decide)⟩
  · exact ⟨_, rfl, traceCaseHelper (VLTL.LTLF.limp (VLTL.LTLF.lfin (VLTL.LTLF.atom 1)) (VLTL.LTLF.luntil (VLTL.LTLF.lnot (VLTL.LTLF.atom 1)) (VLTL.LTLF.land (VLTL.LTLF.atom 0) (VLTL.LTLF.lnot (VLTL.LTLF.atom 1)))))
      [[0], [1]] [[1]] 2 L hnd hlen _ _ _ rfl rfl rfl (by decide) (by decide)
      (by decide) (by decide) (by decide) (by decide) (by decide)⟩
  · exact ⟨_, rfl, traceCaseHelper (VLTL.LTLF.lglob (VLTL.LTLF.limp (VLTL.LTLF.atom 0) (VLTL.LTLF.atom 1)))
      [[0, 1], [1]] [[0], []] 2 L hnd hlen _ _ _ rfl rfl rfl (by decide) (by decide)
      (by decide) (by decide) (by decide) (by decide) (by decide)⟩
  · exact ⟨_, rfl, traceCaseHelper (VLTL.LTLF.lglob (VLTL.LTLF.land (VLTL.LTLF.atom 0) (VLTL.LTLF.atom 1)))
      [[0, 1]] [[0], []] 2 L hnd hlen _ _ _ rfl rfl rfl (by decide) (by decide)
      (by decide) (by decide) (by decide) (by decide) (by decide)⟩
  · exact ⟨_, rfl, traceCaseHelper (VLTL.LTLF.limp (VLTL.LTLF.lglob (VLTL.LTLF.limp (VLTL.LTLF.atom 0) (VLTL.LTLF.lfin (VLTL.LTLF.atom 1)))) (VLTL.LTLF.lglob (VLTL.LTLF.lfin (VLTL.LTLF.atom 2))))
      [[0], [1, 2]] [[0], [1]] 3 L hnd hlen _ _ _ rfl rfl rfl (by decide) (by decide)
      (by decide) (by decide) (by decide) (by decide) (by decide)⟩
  · exact ⟨_, rfl, traceCaseHelper (VLTL.LTLF.limp (VLTL.LTLF.lglob (VLTL.LTLF.lfin (VLTL.LTLF.atom 0))) (VLTL.LTLF.lglob (VLTL.LTLF.lfin (VLTL.LTLF.atom 1))))
      [[]] [[0]] 2 L hnd hlen _ _ _ rfl rfl rfl (by decide) (by decide)
      (by decide) (by decide) (by decide) (by decide) (by decide)⟩
  · exact ⟨_, rfl, traceCaseHelper (VLTL.LTLF.lor (VLTL.LTLF.lglob (VLTL.LTLF.lfin (VLTL.LTLF.atom 0))) (VLTL.LTLF.lglob (VLTL.LTLF.lfin (VLTL.LTLF.atom 1))))
      [[0]] [[]] 2 L hnd hlen _ _ _ rfl rfl rfl (by decide) (by decide)
      (by decide) (by decide) (by decide) (by decide) (by decide)⟩
  · exact ⟨_, rfl, traceCaseHelper (VLTL.LTLF.lfin (VLTL.LTLF.lglob (VLTL.LTLF.lnot (VLTL.LTLF.atom 0))))
      [[0], [], []] [[0], [], [0]] 1 L hnd hlen _ _ _ rfl rfl rfl (by decide) (by decide)
      (by decide) (by decide) (by decide) (by decide) (by decide)⟩
  · exact ⟨_, rfl, traceCaseHelper (VLTL.LTLF.lglob (VLTL.LTLF.limp (VLTL.LTLF.lnot (VLTL.LTLF.land (VLTL.LTLF.atom 0) (VLTL.LTLF.atom 1))) (VLTL.LTLF.lfin (VLTL.LTLF.atom 2))))
      [[0, 1]] [[]] 3 L hnd hlen _ _ _ rfl rfl rfl (by decide) (by decide)
      (by decide) (by decide) (by decide) (by decide) (by decide)⟩
  · exact ⟨_, rfl, traceCaseHelper (VLTL.LTLF.land (VLTL.LTLF.lglob (VLTL.LTLF.lnot (VLTL.LTLF.land (VLTL.LTLF.atom 0) (VLTL.LTLF.atom 1)))) (VLTL.LTLF.lglob (VLTL.LTLF.lor (VLTL.LTLF.atom 0) (VLTL.LTLF.atom 1))))
      [[0], [1], [0]] [[], []] 2 L hnd hlen _ _ _ rfl rfl rfl (by decide) (by decide)
      (by decide) (by decide) (by decide) (by decide) (by decide)⟩
  · exact ⟨_, rfl, traceCaseHelper (VLTL.LTLF.lglob (VLTL.LTLF.limp (VLTL.LTLF.liff (VLTL.LTLF.atom 0) (VLTL.LTLF.atom 1)) (VLTL.LTLF.liff (VLTL.LTLF.atom 1) (VLTL.LTLF.atom 2))))
      [[0, 1, 2]] [[0, 1]] 3 L hnd hlen _ _ _ rfl rfl rfl (by decide) (by decide)
      (by decide) (by decide) (by decide) (by decide) (by decide)⟩
  · exact ⟨_, rfl, traceCaseHelper (VLTL.LTLF.luntil (VLTL.LTLF.lnot (VLTL.LTLF.atom 0)) (VLTL.LTLF.atom 1))
      [[], [], [1]] [[0], [0], [0]] 2 L hnd hlen _ _ _ rfl rfl rfl (by decide) (by decide)
      (by decide) (by decide) (by decide) (by decide) (by decide)⟩
  · exact ⟨_, rfl, traceCaseHelper (VLTL.LTLF.lglob (VLTL.LTLF.limp (VLTL.LTLF.atom 0) (VLTL.LTLF.lnext (VLTL.LTLF.lglob (VLTL.LTLF.lnot (VLTL.LTLF.atom 1))))))
      [[0], [], []] [[0], [], [1]] 2 L hnd hlen _ _ _ rfl rfl rfl (by decide) (by decide)
      (by decide) (by decide) (by decide) (by decide) (by decide)⟩
  · exact ⟨_, rfl, traceCaseHelper (VLTL.LTLF.lglob (VLTL.LTLF.lnot (VLTL.LTLF.land (VLTL.LTLF.atom 0) (VLTL.LTLF.atom 1))))
      [[0], [1], []] [[0, 1]] 2 L hnd hlen _ _ _ rfl rfl rfl (by decide) (by decide)
      (by decide) (by decide) (by decide) (by decide) (by decide)⟩
  · exact ⟨_, rfl, traceCaseHelper (VLTL.LTLF.lglob (VLTL.LTLF.limp (VLTL.LTLF.land (VLTL.LTLF.atom 0) (VLTL.LTLF.lnext (VLTL.LTLF.atom 1))) (VLTL.LTLF.lnext (VLTL.LTLF.lnext (VLTL.LTLF.atom 2)))))
      [[0], [1], [2]] [[0], [1], []] 3 L hnd hlen _ _ _ rfl rfl rfl (by decide) (by decide)
      (by decide) (by decide) (by decide) (by decide) (by decide)⟩
  · exact ⟨_, rfl, traceCaseHelper (VLTL.LTLF.lglob (VLTL.LTLF.limp (VLTL.LTLF.atom 0) (VLTL.LTLF.lnext (VLTL.LTLF.lfin (VLTL.LTLF.atom 1)))))
      [[0], [], [1]] [[0], [], []] 2 L hnd hlen _ _ _ rfl rfl rfl (by decide) (by decide)
      (by decide) (by decide) (by decide) (by decide) (by decide)⟩
  · exact ⟨_, rfl, traceCaseHelper (VLTL.LTLF.lor (VLTL.LTLF.lglob (VLTL.LTLF.lfin (VLTL.LTLF.atom 0))) (VLTL.LTLF.lnext (VLTL.LTLF.atom 1)))
      [[0]] [[], []] 2 L hnd hlen _ _ _ rfl rfl rfl (by decide) (by decide)
      (by decide) (by decide) (by decide) (by decide) (by decide)⟩
  · exact ⟨_, rfl, traceCaseHelper (VLTL.LTLF.lglob (VLTL.LTLF.atom 0))
      [[0]] [[0], []] 1 L hnd hlen _ _ _ rfl rfl rfl (by decide) (by decide)
      (by decide) (by decide) (by decide) (by decide) (by decide)⟩
  · exact ⟨_, rfl, traceCaseHelper (VLTL.LTLF.lglob (VLTL.LTLF.limp (VLTL.LTLF.atom 0) (VLTL.LTLF.lor (VLTL.LTLF.atom 1) (VLTL.LTLF.lnext (VLTL.LTLF.atom 1)))))
      [[0, 1]] [[0], []] 2 L hnd hlen _ _ _ rfl rfl rfl (by decide) (by decide)
      (by decide) (by decide) (by decide) (by decide) (by decide)⟩
  · exact ⟨_, rfl, traceCaseHelper (VLTL.LTLF.lglob (VLTL.LTLF.lor (VLTL.LTLF.atom 0) (VLTL.LTLF.lor (VLTL.LTLF.atom 1) (VLTL.LTLF.atom 2))))
      [[0], [1], [2]] [[]] 3 L hnd hlen _ _ _ rfl rfl rfl (by decide) (by decide)
      (by decide) (by decide) (by decide) (by decide) (by decide)⟩
  · exact ⟨_, rfl, traceCaseHelper (VLTL.LTLF.lglob (VLTL.LTLF.limp (VLTL.LTLF.atom 0) (VLTL.LTLF.lfin (VLTL.LTLF.atom 1))))
      [[0], [], [1]] [[0], [], []] 2 L hnd hlen _ _ _ rfl rfl rfl (by decide) (by decide)
      (by decide) (by decide) (by decide) (by decide) (by decide)⟩
  · exact ⟨_, rfl, traceCaseHelper (VLTL.LTLF.lnot (VLTL.LTLF.lglob (VLTL.LTLF.lnot (VLTL.LTLF.land (VLTL.LTLF.atom 0) (VLTL.LTLF.lnext (VLTL.LTLF.atom 0))))))
      [[0], [], [0]] [[0], [], [], []] 1 L hnd hlen _ _ _ rfl rfl rfl (by decide) (by decide)
      (by decide) (by decide) (by decide) (by decide) (by decide)⟩
  · exact ⟨_, rfl, traceCaseHelper (VLTL.LTLF.lglob (VLTL.LTLF.limp (VLTL.LTLF.atom 0) (VLTL.LTLF.lnext (VLTL.LTLF.atom 1))))
      [[0], [1]] [[0], []] 2 L hnd hlen _ _ _ rfl rfl rfl (by decide) (by decide)
      (by decide) (by decide) (by decide) (by decide) (by decide)⟩
  · exact ⟨_, rfl, traceCaseHelper (VLTL.LTLF.lfin (VLTL.LTLF.land (VLTL.LTLF.atom 0) (VLTL.LTLF.atom 1)))
      [[0, 1]] [[], [], []] 2 L hnd hlen _ _ _ rfl rfl rfl (by decide) (by decide)
      (by decide) (by decide) (by decide) (by decide) (by decide)⟩
  · exact ⟨_, rfl, traceCaseHelper (VLTL.LTLF.land (VLTL.LTLF.lfin (VLTL.LTLF.atom 0)) (VLTL.LTLF.lfin (VLTL.LTLF.atom 1)))
      [[0], [1]] [[], [], []] 2 L hnd hlen _ _ _ rfl rfl rfl (by decide) (by decide)
      (by decide) (by decide) (by decide) (by decide) (by decide)⟩
  · exact ⟨_, rfl, traceCaseHelper (VLTL.LTLF.limp (VLTL.LTLF.atom 1) (VLTL.LTLF.lnext (VLTL.LTLF.lor (VLTL.LTLF.luntil (VLTL.LTLF.atom 2) (VLTL.LTLF.atom 0)) (VLTL.LTLF.lglob (VLTL.LTLF.atom 2)))))
      [[1], [2], [2], [0]] [[1], []] 3 L hnd hlen _ _ _ rfl rfl rfl (by decide) (by decide)
      (by decide) (by decide) (by decide) (by decide) (by decide)⟩
  · exact ⟨_, rfl, traceCaseHelper (VLTL.LTLF.lor (VLTL.LTLF.luntil (VLTL.LTLF.atom 0) (VLTL.LTLF.atom 1)) (VLTL.LTLF.lglob (VLTL.LTLF.atom 0)))
      [[0], [0], [1]] [[], []] 2 L hnd hlen _ _ _ rfl rfl rfl (by decide) (by decide)
      (by decide) (by decide) (by decide) (by decide) (by decide)⟩

end VLTL

namespace VLTL

/-- C3 counterexample: the skeleton `X` does have a hand-authored trace
builder and `["p"]` is a duplicate-free atom list of its arity, but the
violating trace `_make_traces` returns for it, `[["p"]]`, SATISFIES the
formula `next p` at moment 0 under the repeat-last-moment convention (the
single moment repeats forever, so `p` also holds at moment 1).  Hence the
violating trace does not evaluate to false, refuting the claim as stated. -/
theorem c3_counterexample :
    ((traceBuilders "").lookup "X").isSome = true ∧
    formulaOf "" "X" ["p"] = some (LTLF.lnext (LTLF.atom "p")) ∧
    (makeTraces "" "X" ["p"]).2 = [["p"]] ∧
    Sat (extendTr [["p"]]) 0 (LTLF.lnext (LTLF.atom "p")) := by
  refine ⟨rfl, rfl, rfl, ?_⟩
  exact (evalB_correct [["p"]] (by decide) (LTLF.lnext (LTLF.atom "p")) 0).mp (by decide)

/-- C3 witness: the amended theorem applied to the skeleton `G_IMPL_F` and
the concrete atom list `["p", "q"]`. -/
theorem c3_witness :
    ∃ φ, formulaOf "" "G_IMPL_F" ["p", "q"] = some φ ∧
      Sat (extendTr (makeTraces "" "G_IMPL_F" ["p", "q"]).1) 0 φ ∧
      ¬ Sat (extendTr (makeTraces "" "G_IMPL_F" ["p", "q"]).2) 0 φ :=
  c3_amended_traces ("G_IMPL_F", 2) (by decide) ["p", "q"] (by decide) rfl

/-- The skeleton names registered in the catalog. -/
def catalogKeys : List String := LTL_TEMPLATES_STATE.map fun e => e.1

/-- C4 counterexample: the base-eight skeleton `U` is registered in the
catalog but has no entry in `_TRACE_BUILDERS`, so `_make_traces` produces
the generic fallback pair for it (all labels true at moment 0 versus three
empty moments). -/
theorem c4_counterexample :
    "U" ∈ catalogKeys ∧ ((traceBuilders "").lookup "U") = none ∧
    makeTraces "" "U" ["p", "q"] = ([["p", "q"]], [[], [], []]) := by
  refine ⟨by decide, rfl, rfl⟩

/-- C4 (amended): every skeleton name registered in the catalog except `U`
has a hand-authored entry in the trace-builder table, and for those keys
`_make_traces` returns the hand-authored pair, never the generic fallback. -/
theorem c4_amended_builders :
    ∀ k ∈ catalogKeys, k ≠ "U" →
      ∃ b, (traceBuilders "").lookup k = some b ∧
        ∀ labels : List String, makeTraces "" k labels = (b labels true, b labels false) := by
  have hsome : ∀ k ∈ catalogKeys, k ≠ "U" →
      (((traceBuilders "").lookup k).isSome) = true := by decide
  intro k hk hne
  rcases Option.isSome_iff_exists.mp (hsome k hk hne) with ⟨b, hb⟩
  refine ⟨b, hb, fun labels => ?_⟩
  unfold makeTraces
  rw [hb]

/-- C4 witness: the amended theorem applied to the cataloged key `F_NOT`. -/
theorem c4_witness :
    ∃ b, (traceBuilders "").lookup "F_NOT" = some b ∧
      ∀ labels : List String, makeTraces "" "F_NOT" labels = (b labels true, b labels false) :=
  c4_amended_builders "F_NOT" (by decide) (by decide)

end VLTL

namespace VLTL

/-! ## Data model and the argument/proposition samplers -/

/-- The per-proposition record stored in `props` / `prop_dict`. -/
structure PropInfo where
  action_canon : String
  action_ref : String
  args_canon : List String
  args_ref : List String
  deriving DecidableEq, Repr, Inhabited

/-- `_atom` (source lines 707-709, also inlined at line 961): the canonical
atom string `verb(a1,...,ak)`, or the bare verb when there are no
arguments. -/
def atomOf (info : PropInfo) : String :=
  if info.args_canon.isEmpty then info.action_canon
  else info.action_canon ++ "(" ++ joinComma info.args_canon ++ ")"

/-- One generated dataset entry (the dict built at source lines 828-838). -/
structure Entry where
  id : Nat
  sentence : List String
  tl : List String
  masked_tl : List String
  grounded_sentence : List String
  lifted_sentence_prop_ids : List Nat
  prop_dict : List (String × PropInfo)
  good_trace : List (List String)
  bad_trace : List (List String)
  deriving DecidableEq, Repr, Inhabited

/-- `_entry_is_valid` (source lines 910-921). -/
def entryIsValid (e : Entry) : Bool :=
  ((List.range' 1 e.prop_dict.length).all fun i =>
    e.lifted_sentence_prop_ids.contains i) &&
  ((List.range' 1 e.prop_dict.length).all fun i =>
    e.grounded_sentence.contains (placeholder i))

/-- The vocabulary tables handed to the generator (outputs of
`load_scenario`): the filtered actions dict, the object synonym dict, the
location list, and the per-verb `params` lists from `actions_cfg`. -/
structure Vocab where
  actionsDict : List (String × List String)
  objects : List (String × List String)
  locs : List String
  params : String → List String

/-- `random.choice(seq)`, with the random index supplied by the oracle
value `r`; raises `IndexError` on an empty sequence. -/
def pyChoice (r : Nat) (l : List α) : Except String α :=
  match l with
  | [] => Except.error "IndexError: empty sequence"
  | x :: xs => Except.ok ((x :: xs).getD (r % (x :: xs).length) x)

/-- The argument kinds `_sample_argument` recognizes (source lines 844-906). -/
def recognizedKinds : List String :=
  ["item", "location", "ego", "person", "threat", "light", "lane",
   "traffic_target", "sr_target", "color"]

/-- `_sample_argument` (source lines 844-906).  `r1 r2 r3` feed the
successive `random.choice` calls of the taken branch and `coin` is the
`random.random() < 0.5` draw of the `sr_target` branch. -/
def sampleArgument (r1 r2 r3 : Nat) (coin : Bool) (kind : String)
    (objects : List (String × List String)) (locs : List String) :
    Except String (String × String) :=
  if kind = "item" then do
    let key ← pyChoice r1 (objects.map Prod.fst)
    let ref ← pyChoice r2 ((objects.lookup key).getD [])
    Except.ok (key.replace " " "_", ref.replace "_" " ")
  else if kind = "location" then do
    let canon ← pyChoice r1 locs
    Except.ok (canon, canon.replace "_" " ")
  else if kind = "ego" then Except.ok ("ego", "yourself")
  else if kind = "person" then do
    let mod1 ← pyChoice r1 ["injured", "safe"]
    let noun ← pyChoice r2 ["victim", "rescuer", "hostile"]
    Except.ok (mod1 ++ "_" ++ noun, (mod1 ++ "_" ++ noun).replace "_" " ")
  else if kind = "threat" then do
    let mod1 ← pyChoice r1 ["active", "inactive", "impending", "probable", "nearest"]
    let noun ← pyChoice r2 ["gas_leak", "unstable_beam", "fire_source", "debris", "flood"]
    Except.ok (mod1 ++ "_" ++ noun, (mod1 ++ "_" ++ noun).replace "_" " ")
  else if kind = "light" then do
    let pos ← pyChoice r1 locs
    Except.ok ("light_" ++ pos, (pos ++ " light").replace "_" " ")
  else if kind = "lane" then do
    let dir ← pyChoice r1 ["north", "south", "east", "west", "northwest",
      "northeast", "southwest", "southeast"]
    let num ← pyChoice r2 ["1st", "2nd", "3rd", "4th", "5th", "6th", "7th",
      "8th", "9th", "10th"]
    let road ← pyChoice r3 ["street", "avenue"]
    Except.ok (dir ++ "_" ++ num ++ "_" ++ road,
      (dir ++ "_" ++ num ++ "_" ++ road).replace "_" " ")
  else if kind = "traffic_target" then do
    let canon ← pyChoice r1 ["person", "pedestrian", "vehicle", "car",
      "motorcycle", "cyclist", "jaywalker", "collision"]
    Except.ok (canon, canon)
  else if kind = "sr_target" then
    if coin then do
      let mod1 ← pyChoice r1 ["injured", "safe", "unsafe"]
      let noun ← pyChoice r2 ["person", "civilian", "victim", "rescuer"]
      Except.ok (mod1 ++ "_" ++ noun, (mod1 ++ "_" ++ noun).replace "_" " ")
    else do
      let canon ← pyChoice r1 ["gas_leak", "unstable_beam", "fire_source",
        "debris", "flood"]
      Except.ok (canon, canon.replace "_" " ")
  else if kind = "color" then do
    let canon ← pyChoice r1 ["red", "yellow", "green"]
    Except.ok (canon, canon)
  else Except.error ("Unknown param kind " ++ kind)

/-- `mapM` for `Except`, written out so its equations are convenient. -/
def mapME (f : α → Except ε β) : List α → Except ε (List β)
  | [] => Except.ok []
  | x :: xs => do
    let y ← f x
    let ys ← mapME f xs
    Except.ok (y :: ys)

/-- The random draws consumed by a single attempt of the proposition
sampler: the verb choice, the surface-synonym choice, and one
`(r1, r2, r3, coin)` bundle per argument position. -/
structure Draw where
  verbIdx : Nat
  refIdx : Nat
  argRands : List (Nat × Nat × Nat × Bool)
  deriving Repr, Inhabited

/-- One draw of the proposition sampler (source lines 955-971): choose a
verb, sample one argument per declared parameter kind, choose a surface
synonym.  Errors from `_sample_argument` propagate: there is no handler
anywhere in the generator. -/
def attempt (V : Vocab) (d : Draw) : Except String PropInfo := do
  let verb ← pyChoice d.verbIdx (V.actionsDict.map Prod.fst)
  let args ← mapME (fun ki : Nat × String =>
      let r := d.argRands.getD ki.1 (0, 0, 0, false)
      sampleArgument r.1 r.2.1 r.2.2.1 r.2.2.2 ki.2 V.objects V.locs)
    (V.params verb).enum
  let ref ← pyChoice d.refIdx ((V.actionsDict.lookup verb).getD [])
  Except.ok { action_canon := verb, action_ref := ref,
              args_canon := args.map Prod.fst, args_ref := args.map Prod.snd }

/-- The inner retry loop of the proposition sampler: try the draws in order
until one produces an atom not yet in `used` (`if atom in atoms_used:
continue`); return `none` when the budget is exhausted. -/
def findFresh (V : Vocab) :
    List Draw → List String → Except String (Option (String × PropInfo))
  | [], _ => Except.ok none
  | d :: ds, used => do
    let info ← attempt V d
    if used.contains (atomOf info) then findFresh V ds used
    else Except.ok (some (atomOf info, info))

/-- The proposition-sampling block of `build_dataset_entries` (source lines
948-972): one retry loop of at most 50 draws per requested label, a shared
`atoms_used` set across the labels of one example; a label whose budget is
exhausted is silently skipped. -/
def samplePropsAux (V : Vocab) :
    List (String × List Draw) → List String →
    Except String (List (String × PropInfo))
  | [], _ => Except.ok []
  | (lbl, cands) :: rest, used => do
    match ← findFresh V (cands.take 50) used with
    | some (atom, info) => do
      let tail ← samplePropsAux V rest (atom :: used)
      Except.ok ((lbl, info) :: tail)
    | none => samplePropsAux V rest used

/-- Sample the propositions for one example: `labels` is the output of
`random.sample(label_pool, k)` and `drawss` supplies the retry draws for
each label. -/
def sampleProps (V : Vocab) (labels : List String) (drawss : List (List Draw)) :
    Except String (List (String × PropInfo)) :=
  samplePropsAux V (labels.zip drawss) []

end VLTL

namespace VLTL

theorem pyChoice_ok {α : Type} {l : List α} (hl : l ≠ []) (r : Nat) :
    ∃ x, pyChoice r l = Except.ok x ∧ x ∈ l := by
  match l, hl with
  | x :: xs, _ =>
    refine ⟨(x :: xs).getD (r % (x :: xs).length) x, rfl, ?_⟩
    have hr : r % (x :: xs).length < (x :: xs).length := Nat.mod_lt _ (by simp)
    rw [List.getD_eq_getElem _ _ hr]
    exact List.getElem_mem hr

theorem lookup_mem_of_fst {β : Type} {l : List (String × β)} {k : String}
    (hk : k ∈ l.map Prod.fst) : ∃ v, l.lookup k = some v ∧ (k, v) ∈ l := by
  induction l with
  | nil => simp at hk
  | cons a l ih =>
    rcases a with ⟨ka, va⟩
    by_cases h : k = ka
    · subst h
      exact ⟨va, by simp [List.lookup], List.mem_cons_self _ _⟩
    · have hk2 : k ∈ l.map Prod.fst := by
        rcases List.mem_map.mp hk with ⟨p, hp, hfst⟩
        rcases List.mem_cons.mp hp with rfl | hp2
        · exact absurd hfst.symm h
        · exact List.mem_map.mpr ⟨p, hp2, hfst⟩
      rcases ih hk2 with ⟨v, hv, hmem⟩
      refine ⟨v, ?_, List.mem_cons_of_mem _ hmem⟩
      have hbeq : (k == ka) = false := beq_eq_false_iff_ne.mpr h
      simp [List.lookup, hbeq, hv]

theorem mapME_ok_forall {α β ε : Type} {f : α → Except ε β} {l : List α} {ys : List β}
    (h : mapME f l = Except.ok ys) : ∀ x ∈ l, ∃ y, f x = Except.ok y := by
  induction l generalizing ys with
  | nil =>
    intro x hx
    cases hx
  | cons a l ih =>
    intro x hx
    simp only [mapME] at h
    cases hfa : f a with
    | error e =>
      rw [hfa] at h
      cases h
    | ok y =>
      rw [hfa] at h
      cases hml : mapME f l with
      | error e =>
        rw [hml] at h
        cases h
      | ok ys2 =>
        rcases List.mem_cons.mp hx with rfl | hx2
        · exact ⟨y, hfa⟩
        · exact ih hml x hx2

end VLTL

namespace VLTL

/-- `Except.ok` feeds its value to the continuation. -/
theorem ebind_ok {α β ε : Type} (a : α) (f : α → Except ε β) :
    (Except.ok a >>= f) = f a := rfl

/-- `Except.error` short-circuits the continuation. -/
theorem ebind_err {α β ε : Type} (e : ε) (f : α → Except ε β) :
    ((Except.error e : Except ε α) >>= f) = Except.error e := rfl

/-- C8: `_sample_argument` returns a (canonical, reference) pair for every
recognized kind given non-empty vocabulary tables; it raises `ValueError`
for every other kind string; and that error is not caught anywhere in the
generator: an unrecognized kind in the parameter list of the drawn verb
makes the whole sampling attempt return an error. -/
theorem c8_sample_argument :
    (∀ kind ∈ recognizedKinds, ∀ r1 r2 r3 : Nat, ∀ coin : Bool,
      ∀ objects : List (String × List String), ∀ locs : List String,
        objects ≠ [] → (∀ o ∈ objects, o.2 ≠ []) → locs ≠ [] →
        ∃ pr, sampleArgument r1 r2 r3 coin kind objects locs = Except.ok pr) ∧
    (∀ kind : String, kind ∉ recognizedKinds →
      ∀ r1 r2 r3 : Nat, ∀ coin : Bool,
      ∀ objects : List (String × List String), ∀ locs : List String,
        sampleArgument r1 r2 r3 coin kind objects locs =
          Except.error ("Unknown param kind " ++ kind)) ∧
    (∀ (V : Vocab) (d : Draw) (verb kind : String),
      pyChoice d.verbIdx (V.actionsDict.map Prod.fst) = Except.ok verb →
      kind ∈ V.params verb → kind ∉ recognizedKinds →
      ∃ msg, attempt V d = Except.error msg) := by
  have part2 : ∀ kind : String, kind ∉ recognizedKinds →
      ∀ r1 r2 r3 : Nat, ∀ coin : Bool,
      ∀ objects : List (String × List String), ∀ locs : List String,
        sampleArgument r1 r2 r3 coin kind objects locs =
          Except.error ("Unknown param kind " ++ kind) := by
    intro kind hk r1 r2 r3 coin objects locs
    simp only [recognizedKinds, List.mem_cons, List.not_mem_nil, or_false, not_or] at hk
    obtain ⟨h1, h2, h3, h4, h5, h6, h7, h8, h9, h10⟩ := hk
    simp [sampleArgument, h1, h2, h3, h4, h5, h6, h7, h8, h9, h10]
  refine ⟨?_, part2, ?_⟩
  · intro kind hkind r1 r2 r3 coin objects locs hobj hsyn hlocs
    have hmapne : objects.map Prod.fst ≠ [] := by simpa using hobj
    fin_cases hkind
    · obtain ⟨key, hkey, hkeymem⟩ := pyChoice_ok hmapne r1
      obtain ⟨syns, hlook, hmemo⟩ := lookup_mem_of_fst hkeymem
      obtain ⟨ref, href, -⟩ := pyChoice_ok (hsyn (key, syns) hmemo) r2
      refine ⟨(key.replace " " "_", ref.replace "_" " "), ?_⟩
      simp [sampleArgument, hkey, hlook, href, ebind_ok]
    · obtain ⟨c, hc, -⟩ := pyChoice_ok hlocs r1
      refine ⟨(c, c.replace "_" " "), ?_⟩
      simp [sampleArgument, hc, ebind_ok]
    · exact ⟨_, rfl⟩
    · exact ⟨_, rfl⟩
    · exact ⟨_, rfl⟩
    · obtain ⟨c, hc, -⟩ := pyChoice_ok hlocs r1
      refine ⟨("light_" ++ c, (c ++ " light").replace "_" " "), ?_⟩
      simp [sampleArgument, hc, ebind_ok]
    · exact ⟨_, rfl⟩
    · exact ⟨_, rfl⟩
    · cases coin
      · exact ⟨_, rfl⟩
      · exact ⟨_, rfl⟩
    · exact ⟨_, rfl⟩
  · intro V d verb kind hverb hkmem hkbad
    cases hat : attempt V d with
    | error e => exact ⟨e, rfl⟩
    | ok info =>
      exfalso
      unfold attempt at hat
      rw [hverb, ebind_ok] at hat
      cases hmap : mapME (fun ki : Nat × String =>
          let r := d.argRands.getD ki.1 (0, 0, 0, false)
          sampleArgument r.1 r.2.1 r.2.2.1 r.2.2.2 ki.2 V.objects V.locs)
          (V.params verb).enum with
      | error e =>
        rw [hmap, ebind_err] at hat
        cases hat
      | ok args =>
        obtain ⟨i, hi, hget⟩ := List.mem_iff_getElem.mp hkmem
        have henum : (i, kind) ∈ (V.params verb).enum := by
          rw [List.mk_mem_enum_iff_getElem?, List.getElem?_eq_getElem hi, hget]
        obtain ⟨y, hy⟩ := mapME_ok_forall hmap (i, kind) henum
        simp only [part2 kind hkbad] at hy
        cases hy

end VLTL

namespace VLTL

/-- C8 witness: a successful draw for the recognized kind `item` on a
one-entry vocabulary, and the error on the unrecognized kind `foo`. -/
theorem c8_witness :
    (∃ pr, sampleArgument 0 0 0 false "item" [("box", ["crate"])] ["shelf"] = Except.ok pr) ∧
    sampleArgument 0 0 0 false "foo" [("box", ["crate"])] ["shelf"] =
      Except.error ("Unknown param kind " ++ "foo") :=
  ⟨c8_sample_argument.1 "item" (by decide) 0 0 0 false [("box", ["crate"])] ["shelf"]
      (by decide) (by decide) (by decide),
   c8_sample_argument.2.1 "foo" (by decide) 0 0 0 false [("box", ["crate"])] ["shelf"]⟩

end VLTL

namespace VLTL

/-! ## Sentence utilities and `build_entry_for_props` -/

/-- The NLTK services used by the generator, as oracles: word tokenizer,
POS tagger, verb lemmatizer, detokenizer. -/
structure NLP where
  tokenize : String → List String
  posTag : List String → List (String × String)
  lemV : String → String
  detok : List String → String

/-- `_REQUIRES_GERUND` (source lines 39-50). -/
def REQUIRES_GERUND : List String :=
  ["avoid", "keep", "stop", "start", "finish", "by", "while", "after", "before", "until"]

/-- `_PUNCT` (source line 51). -/
def PUNCT_TOKS : List String := [".", ",", ";", ":", "!", "?", "—", "-", "–", "…"]

/-- `VERB_LIKE_STARTS` (source lines 137-138). -/
def VERB_LIKE_STARTS : List String :=
  ["never", "avoid", "always", "grab", "ensure", "please", "eventually", "do",
   "keep", "ultimately", "make"]

/-- `EGO_REFS` (source line 139). -/
def EGO_REFS : List String :=
  ["The robot", "You", "Our agent", "The system", "This controller"]

/-- `add_ego_reference` (source lines 644-648).  A sentence with no word at
all would raise in the source; here the first word defaults to `""`, which
is not verb-like, so the sentence is returned unchanged. -/
def addEgoReference (sentence ego : String) : String :=
  let first := pyLower (stripNonAlpha ((pySplitWS sentence).getD 0 ""))
  if first ∈ VERB_LIKE_STARTS then ego ++ " must " ++ sentence else sentence

/-- Helper for `firstNonPunct`: scan the remaining tags, tracking the
absolute index `j`. -/
def firstNonPunctFrom : List (String × String) → Nat → Option Nat
  | [], _ => none
  | t :: rest, j =>
    if PUNCT_TOKS.contains t.1 then firstNonPunctFrom rest (j + 1) else some j

/-- The inner `while` loop of `correct_sentence` (source lines 660-662):
the first index `j ≥ start` whose token is not punctuation. -/
def firstNonPunct (tags : List (String × String)) (start : Nat) : Option Nat :=
  firstNonPunctFrom (tags.drop start) start

/-- The POS tags that trigger gerund conversion (source line 670). -/
def GERUND_TAGS : List String := ["VB", "VBP", "NN", "NNS"]

/-- One iteration of the gerund-agreement loop of `correct_sentence`
(source lines 657-672), at trigger position `i`: the scan reads only
`tags` and writes into `toks`. -/
def gerundStep (tags : List (String × String)) (toks : List String) (i : Nat) : List String :=
  if pyLower (tags.getD i ("", "")).1 ∈ REQUIRES_GERUND then
    match firstNonPunct tags (i + 1) with
    | some j =>
      let nxt := tags.getD j ("", "")
      if isPlaceholderTok nxt.1 || pyEndsWith (pyLower nxt.1) "ing" then toks
      else if nxt.2 ∈ GERUND_TAGS then toks.set j (toGerundS (pyLower nxt.1))
      else toks
    | none => toks
  else toks

/-- The gerund-agreement pass of `correct_sentence`: the trigger position
`i` scans `0, ..., tags.length - 2`. -/
def gerundPhase (tags : List (String × String)) (toks : List String) : List String :=
  (List.range (tags.length - 1)).foldl (gerundStep tags) toks

/-- `correct_sentence` (source lines 651-681): gerund agreement, `i` → `I`,
capitalization at the start and after sentence-ending punctuation,
detokenization. -/
def correctSentence (nlp : NLP) (sentence : String) : String :=
  let toks0 := nlp.tokenize sentence
  let tags := nlp.posTag toks0
  let t1 := gerundPhase tags toks0
  let t2 := t1.map fun t => if t = "i" then "I" else t
  let t3 :=
    match t2 with
    | [] => []
    | h :: rest => pyCapitalize h :: rest
  let t4 := t3.mapIdx fun j t =>
    if 1 ≤ j ∧ t3.getD (j - 1) "" ∈ [".", "!", "?"] then pyCapitalize t else t
  nlp.detok t4

/-- `_nl_segment` (source lines 715-758), keyed on the parameter-kind
signature of the verb. -/
def nlSegment (params : String → List String) (info : PropInfo) : String :=
  let ps := params info.action_canon
  let vref := info.action_ref
  if ps = [] then vref
  else if ps = ["item"] ∨ ps = ["person"] ∨ ps = ["threat"] ∨ ps = ["target"] then
    vref ++ " the " ++ info.args_ref.getD 0 ""
  else if ps = ["item", "location"] then
    vref ++ " the " ++ info.args_ref.getD 0 "" ++ " to the " ++ info.args_ref.getD 1 ""
  else if ps = ["traffic_target", "lane"] then
    let lane := info.args_ref.getD 1 ""
    let prep := if pyIn "street" lane || pyIn "avenue" lane || pyIn "road" lane
      then "on" else "at"
    vref ++ " the " ++ info.args_ref.getD 0 "" ++ " " ++ prep ++ " " ++ lane
  else vref ++ " " ++ joinSpace info.args_ref

/-- `_segment_tokens` (source lines 781-786): lower-cased, punctuation-
stripped tokens of the corrected segment. -/
def segTokensOf (nlp : NLP) (params : String → List String) (info : PropInfo) : List String :=
  let segTxt := correctSentence nlp (nlSegment params info)
  ((nlp.tokenize (pyLower segTxt)).filter fun t => !(pyIn t PUNCT_STR)).map pyRstripPunct

/-- `_same_word` (source lines 56-60). -/
def sameWord (nlp : NLP) (sentTok targTok : String) : Bool :=
  let s := pyLower (pyRstripPunct sentTok)
  let t := pyLower targTok
  s == t || nlp.lemV s == t

/-- Pointwise match of a segment token sequence against the sentence suffix
(`i + L <= len(g_tok) and all(_same_word(g_tok[i+j], tok_seq[j]) ...)`). -/
def prefMatch (nlp : NLP) : List String → List String → Bool
  | [], _ => true
  | s :: ss, t :: ts => sameWord nlp t s && prefMatch nlp ss ts
  | _ :: _, [] => false

/-- The first label (in `labels_used` order) whose segment matches at the
current position: its 1-based id, placeholder token and segment length. -/
def findSeg (nlp : NLP) (segs : List (Nat × String × List String))
    (toks : List String) : Option (Nat × String × Nat) :=
  segs.findSome? fun s =>
    if prefMatch nlp s.2.2 toks then some (s.1, s.2.1, s.2.2.length) else none

/-- Fuelled version of the token-alignment loop; every step consumes at
least one sentence token, so fuel `toks.length` always suffices. -/
def alignLoopF (nlp : NLP) (segs : List (Nat × String × List String)) :
    Nat → List String → Option (List Nat × List String)
  | _, [] => some ([], [])
  | 0, _ :: _ => none
  | fuel + 1, t :: rest =>
    match findSeg nlp segs (t :: rest) with
    | some (pid, ph, L) =>
      if L = 0 then none
      else
        match alignLoopF nlp segs fuel ((t :: rest).drop L) with
        | some (ids, msk) => some (List.replicate L pid ++ ids, ph :: msk)
        | none => none
    | none =>
      match alignLoopF nlp segs fuel rest with
      | some (ids, msk) => some (0 :: ids, t :: msk)
      | none => none

/-- The token-alignment loop of `build_entry_for_props` (source lines
796-817) on the remaining sentence suffix: on a match, emit the placeholder
once into the masked sentence and the id `L` times into the id array;
otherwise copy the token with id 0.  A zero-length segment match would loop
forever in the source and is modelled as `none`. -/
def alignLoop (nlp : NLP) (segs : List (Nat × String × List String))
    (toks : List String) : Option (List Nat × List String) :=
  alignLoopF nlp segs toks.length toks

/-- The post-correction gerund rewrite of `build_entry_for_props` (source
lines 770-774): if the bare first word of `action_ref` no longer occurs in
the corrected sentence but its gerund does, permanently rewrite
`action_ref` to the gerund. -/
def gerundFix (gRaw : String) (info : PropInfo) : PropInfo :=
  let bare := (pySplitWS info.action_ref).getD 0 ""
  let ger := toGerundS bare
  if !(pyIn bare gRaw) && pyIn ger gRaw then { info with action_ref := ger } else info

/-- The viable skeleton list (source lines 699-700): exact-arity matches,
or all skeletons of arity at most the proposition count. -/
def viableSkels (arity : Nat) : List (String × Nat × List STok) :=
  let v := LTL_TEMPLATES_STATE.filter fun t => t.2.1 = arity
  if v.isEmpty then LTL_TEMPLATES_STATE.filter fun t => t.2.1 ≤ arity else v

/-- `props[lbl]` (the generator only looks up labels that are present). -/
def getProp (props : List (String × PropInfo)) (lbl : String) : PropInfo :=
  (props.lookup lbl).getD default

/-- The corrected full sentence `g_raw` (source lines 760-764). -/
def rawSentence (nlp : NLP) (params : String → List String)
    (tpl : List String → String) (ego : String)
    (props : List (String × PropInfo)) (labelsUsed : List String) : String :=
  correctSentence nlp
    (addEgoReference (tpl (labelsUsed.map fun l => nlSegment params (getProp props l))) ego)

/-- `build_entry_for_props` (source lines 690-838).  `rSkel` indexes the
skeleton choice, `tpl` is the chosen sentence template and `ego` the chosen
ego reference.  Returns `none` exactly where the source would crash or
hang: an empty viable-skeleton list (`random.choice([])` raises) or a
zero-length segment match in the alignment loop. -/
def buildEntryForProps (nlp : NLP) (params : String → List String)
    (rSkel : Nat) (tpl : List String → String) (ego : String)
    (idx : Nat) (props : List (String × PropInfo)) : Option Entry :=
  match viableSkels props.length with
  | [] => none
  | v0 :: vs =>
    let sk := (v0 :: vs).getD (rSkel % (v0 :: vs).length) v0
    let labelsUsed := (props.map Prod.fst).take sk.2.1
    let gRaw := rawSentence nlp params tpl ego props labelsUsed
    let gTok := pySplitWS gRaw
    let props2 := props.map fun li => (li.1, gerundFix gRaw li.2)
    let segs := labelsUsed.enum.map fun jl =>
      (jl.1 + 1, placeholder (jl.1 + 1), segTokensOf nlp params (getProp props2 jl.2))
    match alignLoop nlp segs gTok with
    | none => none
    | some (ids, masked) =>
      let mapping := labelsUsed.enum.map fun jl => (jl.2, placeholder (jl.1 + 1))
      let tr := makeTraces "" sk.1 (labelsUsed.map fun l => atomOf (getProp props2 l))
      some {
        id := idx
        sentence := gTok
        tl := instTokens sk.2.2 (labelsUsed.map fun l => atomOf (getProp props l))
        masked_tl := (instTokens sk.2.2 labelsUsed).map fun t => (mapping.lookup t).getD t
        grounded_sentence := masked
        lifted_sentence_prop_ids := ids
        prop_dict := labelsUsed.enum.map fun jl => (placeholder (jl.1 + 1), getProp props2 jl.2)
        good_trace := tr.1
        bad_trace := tr.2 }

/-- The accept/retry loop of `build_dataset_entries` (source lines 946-980)
with explicit fuel; `cand k len` is the candidate entry of iteration `k`
when the dataset holds `len` entries (the provisional id).  `none` when the
fuel runs out before `num` valid entries are collected, or when an
iteration crashes. -/
def buildLoop (cand : Nat → Nat → Option Entry) (num : Nat) :
    Nat → Nat → List Entry → Option (List Entry)
  | 0, _, acc => if num ≤ acc.length then some acc else none
  | fuel + 1, k, acc =>
    if num ≤ acc.length then some acc
    else
      match cand k acc.length with
      | none => none
      | some e =>
        buildLoop cand num fuel (k + 1) (if entryIsValid e then acc ++ [e] else acc)

/-- The final sequential id reassignment (source lines 983-984). -/
def reindex (es : List Entry) : List Entry :=
  es.enum.map fun ie => { ie.2 with id := ie.1 }

/-- `build_dataset_entries`, given the per-iteration candidate oracle. -/
def buildDatasetEntries (cand : Nat → Nat → Option Entry) (num fuel : Nat) :
    Option (List Entry) :=
  (buildLoop cand num fuel 0 []).map reindex

/-- The randomness consumed by one iteration of `build_dataset_entries`:
the output of `random.sample(label_pool, k)`, the retry draws per label,
and the choices made inside `build_entry_for_props`. -/
structure IterRand where
  labels : List String
  drawss : List (List Draw)
  rSkel : Nat
  tpl : List String → String
  ego : String

/-- One iteration of `build_dataset_entries`: sample the propositions, then
build the entry; sampling errors and generator crashes yield `none`. -/
def iteration (nlp : NLP) (V : Vocab) (r : IterRand) (idx : Nat) : Option Entry :=
  match sampleProps V r.labels r.drawss with
  | Except.error _ => none
  | Except.ok props => buildEntryForProps nlp V.params r.rSkel r.tpl r.ego idx props

/-- The full dataset build: iteration `k` draws its randomness from `rs k`. -/
def buildDatasetFull (nlp : NLP) (V : Vocab) (rs : Nat → IterRand) (num fuel : Nat) :
    Option (List Entry) :=
  buildDatasetEntries (fun k len => iteration nlp V (rs k) len) num fuel

end VLTL

namespace VLTL

/-- Reassigning the id does not affect validity. -/
theorem reindex_entryIsValid (ie : Nat × Entry) :
    entryIsValid { ie.2 with id := ie.1 } = entryIsValid ie.2 := rfl

/-- Every entry the accept/retry loop adds to the dataset passed
`_entry_is_valid`. -/
theorem buildLoop_valid (cand : Nat → Nat → Option Entry) (num : Nat) :
    ∀ fuel k acc ds, (∀ e ∈ acc, entryIsValid e = true) →
      buildLoop cand num fuel k acc = some ds →
      ∀ e ∈ ds, entryIsValid e = true := by
  intro fuel
  induction fuel with
  | zero =>
    intro k acc ds hacc h
    rw [buildLoop] at h
    split at h
    · cases h
      exact hacc
    · cases h
  | succ fuel ih =>
    intro k acc ds hacc h
    rw [buildLoop] at h
    split at h
    · cases h
      exact hacc
    · cases hc : cand k acc.length with
      | none =>
        rw [hc] at h
        cases h
      | some e =>
        rw [hc] at h
        refine ih (k + 1) _ ds ?_ h
        by_cases hv : entryIsValid e = true
        · rw [if_pos hv]
          intro x hx
          rcases List.mem_append.mp hx with hx | hx
          · exact hacc x hx
          · rw [List.mem_singleton.mp hx]
            exact hv
        · rw [if_neg hv]
          exact hacc

/-- C1: `_entry_is_valid` returns true exactly when every placeholder id
`1..N` occurs in `lifted_sentence_prop_ids` and every placeholder token
`prop_1..prop_N` occurs in `grounded_sentence` (`N` the number of
propositions in `prop_dict`); and every entry of the dataset returned by
`build_dataset_entries` satisfies both conditions. -/
theorem c1_coverage_invariant :
    (∀ e : Entry, entryIsValid e = true ↔
      ((∀ i, 1 ≤ i → i ≤ e.prop_dict.length → i ∈ e.lifted_sentence_prop_ids) ∧
       (∀ i, 1 ≤ i → i ≤ e.prop_dict.length → placeholder i ∈ e.grounded_sentence))) ∧
    (∀ cand num fuel ds, buildDatasetEntries cand num fuel = some ds →
      ∀ e ∈ ds, entryIsValid e = true) := by
  constructor
  · intro e
    simp only [entryIsValid, Bool.and_eq_true, List.all_eq_true, List.mem_range'_1,
      List.contains, List.elem_iff]
    constructor
    · rintro ⟨h1, h2⟩
      exact ⟨fun i hi1 hi2 => h1 i ⟨hi1, by omega⟩, fun i hi1 hi2 => h2 i ⟨hi1, by omega⟩⟩
    · rintro ⟨h1, h2⟩
      exact ⟨fun i hi => h1 i hi.1 (by omega), fun i hi => h2 i hi.1 (by omega)⟩
  · intro cand num fuel ds h
    unfold buildDatasetEntries at h
    cases hb : buildLoop cand num fuel 0 [] with
    | none =>
      rw [hb] at h
      cases h
    | some ds0 =>
      rw [hb] at h
      simp only [Option.map_some'] at h
      cases h
      intro e he
      rcases List.mem_map.mp he with ⟨ie, hie, rfl⟩
      have h2 : ie.2 ∈ ds0 := List.getElem?_mem (List.mem_enum_iff_getElem?.mp hie)
      rw [reindex_entryIsValid]
      exact buildLoop_valid cand num fuel 0 [] ds0 (by intro x hx; cases hx) hb ie.2 h2

/-- A concrete valid entry for the C1 witness. -/
def entW : Entry := {
  id := 0
  sentence := ["Always", "avoid", "idling", "."]
  tl := ["finally", "(", "not", "idle", ")"]
  masked_tl := ["finally", "(", "not", "prop_1", ")"]
  grounded_sentence := ["Always", "avoid", "prop_1", "."]
  lifted_sentence_prop_ids := [0, 0, 1, 0]
  prop_dict := [("prop_1", PropInfo.mk "idle" "idling" [] [])]
  good_trace := [["idle"], [], []]
  bad_trace := [["idle"], ["idle"], ["idle"]] }

/-- C1 witness: the dataset built over a constant candidate stream keeps
the valid entry `entW`, and the theorem applies to it. -/
theorem c1_witness :
    buildDatasetEntries (fun _ _ => some entW) 1 2 = some [entW] ∧
    ∀ e ∈ [entW], entryIsValid e = true := by
  have hbuild : buildDatasetEntries (fun _ _ => some entW) 1 2 = some [entW] := by decide
  exact ⟨hbuild, c1_coverage_invariant.2 (fun _ _ => some entW) 1 2 [entW] hbuild⟩

end VLTL

namespace VLTL

/-- A successful `findFresh` returns the atom of the accepted draw, and
that atom was fresh. -/
theorem findFresh_ok (V : Vocab) :
    ∀ cands used atom info, findFresh V cands used = Except.ok (some (atom, info)) →
      atom = atomOf info ∧ used.contains atom = false := by
  intro cands
  induction cands with
  | nil =>
    intro used atom info h
    simp [findFresh] at h
  | cons d ds ih =>
    intro used atom info h
    simp only [findFresh] at h
    cases hat : attempt V d with
    | error e =>
      rw [hat] at h
      cases h
    | ok info2 =>
      rw [hat] at h
      by_cases hc : used.contains (atomOf info2) = true
      · simp only [ebind_ok, hc, if_true] at h
        exact ih used atom info h
      · simp only [ebind_ok, hc, if_false, Bool.not_eq_true] at h
        rcases h with ⟨rfl, rfl⟩
        exact ⟨rfl, Bool.not_eq_true _ ▸ hc⟩

/-- The proposition sampler never emits two entries with the same canonical
atom string, and never an atom already in `used`. -/
theorem samplePropsAux_atoms_nodup (V : Vocab) :
    ∀ pend used props, samplePropsAux V pend used = Except.ok props →
      (props.map fun p => atomOf p.2).Nodup ∧ ∀ p ∈ props, atomOf p.2 ∉ used := by
  intro pend
  induction pend with
  | nil =>
    intro used props h
    cases h
    exact ⟨List.nodup_nil, by intro p hp; cases hp⟩
  | cons a rest ih =>
    intro used props h
    rcases a with ⟨lbl, cands⟩
    simp only [samplePropsAux] at h
    cases hff : findFresh V (cands.take 50) used with
    | error e =>
      rw [hff] at h
      cases h
    | ok opt =>
      rw [hff] at h
      cases opt with
      | none => exact ih used props h
      | some ai =>
        rcases ai with ⟨atom, info⟩
        simp only [ebind_ok] at h
        cases htl : samplePropsAux V rest (atom :: used) with
        | error e =>
          rw [htl] at h
          cases h
        | ok tail =>
          rw [htl] at h
          simp only [ebind_ok] at h
          cases h
          obtain ⟨hnd, hnotin⟩ := ih (atom :: used) tail htl
          obtain ⟨rfl, hfresh⟩ := findFresh_ok V (cands.take 50) used _ info hff
          have hfresh2 : atomOf info ∉ used := by
            intro hmem
            have h3 : used.contains (atomOf info) = true := List.elem_iff.mpr hmem
            rw [h3] at hfresh
            cases hfresh
          constructor
          · refine List.nodup_cons.mpr ⟨?_, hnd⟩
            intro hmem
            rcases List.mem_map.mp hmem with ⟨p, hp, hpeq⟩
            exact hnotin p hp (hpeq ▸ List.mem_cons_self _ _)
          · intro p hp
            rcases List.mem_cons.mp hp with rfl | hp2
            · exact hfresh2
            · intro hmem
              exact hnotin p hp2 (List.mem_cons_of_mem _ hmem)

/-- The labels of the sampled propositions form a sublist of the requested
labels (exhausted labels are skipped, order is preserved). -/
theorem samplePropsAux_keys_sublist (V : Vocab) :
    ∀ pend used props, samplePropsAux V pend used = Except.ok props →
      List.Sublist (props.map Prod.fst) (pend.map Prod.fst) := by
  intro pend
  induction pend with
  | nil =>
    intro used props h
    cases h
    simp
  | cons a rest ih =>
    intro used props h
    rcases a with ⟨lbl, cands⟩
    simp only [samplePropsAux] at h
    cases hff : findFresh V (cands.take 50) used with
    | error e =>
      rw [hff] at h
      cases h
    | ok opt =>
      rw [hff] at h
      cases opt with
      | none =>
        exact List.Sublist.cons _ (ih used props h)
      | some ai =>
        rcases ai with ⟨atom, info⟩
        simp only [ebind_ok] at h
        cases htl : samplePropsAux V rest (atom :: used) with
        | error e =>
          rw [htl] at h
          cases h
        | ok tail =>
          rw [htl] at h
          simp only [ebind_ok] at h
          cases h
          exact List.Sublist.cons₂ _ (ih (atom :: used) tail htl)

/-- `zip` keeps a sublist of the first component list. -/
theorem zip_map_fst_sublist {α β : Type} (l1 : List α) (l2 : List β) :
    List.Sublist ((l1.zip l2).map Prod.fst) l1 := by
  induction l1 generalizing l2 with
  | nil => simp
  | cons a t ih =>
    cases l2 with
    | nil => simp
    | cons b t2 =>
      simp only [List.zip_cons_cons, List.map_cons]
      exact List.Sublist.cons₂ a (ih t2)

/-- Looking up in a value-mapped association list. -/
theorem lookup_map_value {β γ : Type} (f : β → γ) (l : List (String × β)) (k : String) :
    (l.map fun li => (li.1, f li.2)).lookup k = (l.lookup k).map f := by
  induction l with
  | nil => rfl
  | cons a rest ih =>
    by_cases hk : (k == a.1) = true
    · simp [List.lookup, hk]
    · simp only [List.map_cons, List.lookup, hk]
      exact ih

/-- The gerund rewrite never touches the canonical fields, so the atom is
unchanged. -/
theorem atomOf_gerundFix (gRaw : String) (info : PropInfo) :
    atomOf (gerundFix gRaw info) = atomOf info := by
  simp only [gerundFix]
  split_ifs <;> rfl

/-- Looking every key of a duplicate-free association list back up yields
the value list. -/
theorem map_getProp_eq :
    ∀ props : List (String × PropInfo), (props.map Prod.fst).Nodup →
      (props.map Prod.fst).map (getProp props) = props.map Prod.snd := by
  intro props
  induction props with
  | nil => intro h; rfl
  | cons a rest ih =>
    intro hnd
    simp only [List.map_cons]
    rcases List.nodup_cons.mp hnd with ⟨hhead, htail⟩
    congr 1
    · simp [getProp, List.lookup]
    · rw [List.map_congr_left (fun l hl => ?_), ih htail]
      have hne : (l == a.1) = false := by
        refine beq_eq_false_iff_ne.mpr fun heq => hhead ?_
        rw [← heq]
        exact hl
      simp [getProp, List.lookup, hne]

end VLTL

namespace VLTL

/-- The atom list of the `prop_dict` built by `build_entry_for_props` is the
atom list of the first `n` sampled propositions. -/
theorem prop_dict_atoms_eq (props : List (String × PropInfo)) (gRaw : String) (n : Nat) :
    ((((props.map Prod.fst).take n).enum.map fun jl =>
        (placeholder (jl.1 + 1),
         getProp (props.map fun li => (li.1, gerundFix gRaw li.2)) jl.2)).map
      fun p => atomOf p.2) =
    ((props.map Prod.fst).take n).map fun l => atomOf (getProp props l) := by
  rw [List.map_map]
  have h1 : ∀ jl : Nat × String,
      atomOf (getProp (props.map fun li => (li.1, gerundFix gRaw li.2)) jl.2) =
      atomOf (getProp props jl.2) := by
    intro jl
    unfold getProp
    rw [lookup_map_value]
    cases props.lookup jl.2 with
    | none => rfl
    | some v => exact atomOf_gerundFix gRaw v
  calc (((props.map Prod.fst).take n).enum.map
        ((fun p : String × PropInfo => atomOf p.2) ∘ fun jl =>
          (placeholder (jl.1 + 1),
           getProp (props.map fun li => (li.1, gerundFix gRaw li.2)) jl.2)))
      = ((props.map Prod.fst).take n).enum.map
          ((fun l => atomOf (getProp props l)) ∘ Prod.snd) := by
        refine List.map_congr_left fun jl hjl => ?_
        exact h1 jl
    _ = (((props.map Prod.fst).take n).enum.map Prod.snd).map
          fun l => atomOf (getProp props l) := by rw [List.map_map]
    _ = ((props.map Prod.fst).take n).map fun l => atomOf (getProp props l) := by
        rw [List.enum_map_snd]

/-- If the sampled propositions have duplicate-free keys and atoms, so does
the `prop_dict` of the entry built from them. -/
theorem buildEntry_prop_dict_atoms (nlp : NLP) (params : String → List String)
    (rSkel : Nat) (tpl : List String → String) (ego : String) (idx : Nat)
    (props : List (String × PropInfo)) (e : Entry)
    (hkeys : (props.map Prod.fst).Nodup)
    (hatoms : (props.map fun p => atomOf p.2).Nodup)
    (h : buildEntryForProps nlp params rSkel tpl ego idx props = some e) :
    (e.prop_dict.map fun p => atomOf p.2).Nodup := by
  unfold buildEntryForProps at h
  split at h
  · cases h
  · dsimp only [] at h
    split at h
    · cases h
    · cases h
      rw [prop_dict_atoms_eq]
      have hmaps : ((props.map Prod.fst).map fun l => atomOf (getProp props l)) =
          props.map fun p => atomOf p.2 := by
        calc (props.map Prod.fst).map (fun l => atomOf (getProp props l))
            = ((props.map Prod.fst).map (getProp props)).map atomOf := by
              simp only [List.map_map]
              rfl
          _ = (props.map Prod.snd).map atomOf := by rw [map_getProp_eq props hkeys]
          _ = props.map fun p => atomOf p.2 := by
              simp only [List.map_map]
              rfl
      refine List.Sublist.nodup (List.Sublist.map _ (List.take_sublist _ _)) ?_
      rw [hmaps]
      exact hatoms

/-- Every entry of the loop output comes from the candidate oracle (or was
already accumulated). -/
theorem buildLoop_mem_source (cand : Nat → Nat → Option Entry) (num : Nat) :
    ∀ fuel k acc ds, buildLoop cand num fuel k acc = some ds →
      ∀ e ∈ ds, e ∈ acc ∨ ∃ k2 len, cand k2 len = some e := by
  intro fuel
  induction fuel with
  | zero =>
    intro k acc ds h e he
    simp only [buildLoop] at h
    split at h
    · cases h
      exact Or.inl he
    · cases h
  | succ fuel ih =>
    intro k acc ds h e he
    simp only [buildLoop] at h
    split at h
    · cases h
      exact Or.inl he
    · cases hc : cand k acc.length with
      | none =>
        rw [hc] at h
        cases h
      | some e2 =>
        rw [hc] at h
        rcases ih (k + 1) _ ds h e he with hin | hex
        · by_cases hv : entryIsValid e2 = true
          · rw [if_pos hv] at hin
            rcases List.mem_append.mp hin with h1 | h1
            · exact Or.inl h1
            · rw [List.mem_singleton.mp h1]
              exact Or.inr ⟨k, acc.length, hc⟩
          · rw [if_neg hv] at hin
            exact Or.inl hin
        · exact Or.inr hex

/-- C5: in every example assembled by `build_dataset_entries` (propositions
sampled with the shared `atoms_used` freshness check, then assembled by
`build_entry_for_props`), no two propositions share the same canonical atom
string. -/
theorem c5_distinct_atoms (nlp : NLP) (V : Vocab) (rs : Nat → IterRand)
    (num fuel : Nat) (ds : List Entry)
    (hnd : ∀ k, (rs k).labels.Nodup)
    (h : buildDatasetFull nlp V rs num fuel = some ds) :
    ∀ e ∈ ds, (e.prop_dict.map fun p => atomOf p.2).Nodup := by
  unfold buildDatasetFull buildDatasetEntries at h
  cases hb : buildLoop (fun k len => iteration nlp V (rs k) len) num fuel 0 [] with
  | none =>
    rw [hb] at h
    cases h
  | some ds0 =>
    rw [hb] at h
    simp only [Option.map_some'] at h
    cases h
    intro e he
    rcases List.mem_map.mp he with ⟨ie, hie, rfl⟩
    have h2 : ie.2 ∈ ds0 := List.getElem?_mem (List.mem_enum_iff_getElem?.mp hie)
    rcases buildLoop_mem_source _ num fuel 0 [] ds0 hb ie.2 h2 with hin | ⟨k2, len, hc⟩
    · cases hin
    · unfold iteration at hc
      cases hsp : sampleProps V (rs k2).labels (rs k2).drawss with
      | error e2 =>
        rw [hsp] at hc
        cases hc
      | ok props =>
        rw [hsp] at hc
        unfold sampleProps at hsp
        have hatoms := (samplePropsAux_atoms_nodup V _ _ props hsp).1
        have hkeys : (props.map Prod.fst).Nodup := by
          have hsub := samplePropsAux_keys_sublist V _ _ props hsp
          exact (hsub.trans
            ((zip_map_fst_sublist (rs k2).labels (rs k2).drawss))).nodup (hnd k2)
        exact buildEntry_prop_dict_atoms nlp V.params (rs k2).rSkel (rs k2).tpl
          (rs k2).ego len props ie.2 hkeys hatoms hc

end VLTL

namespace VLTL

/-- A concrete NLP oracle for witnesses: whitespace tokenizer, everything
tagged `NN`, identity lemmatizer, space-joining detokenizer. -/
def nlpW : NLP := {
  tokenize := pySplitWS
  posTag := fun ts => ts.map fun t => (t, "NN")
  lemV := id
  detok := joinSpace }

/-- A one-verb vocabulary for witnesses. -/
def vocabW : Vocab := {
  actionsDict := [("idle", ["idle"])]
  objects := [("box", ["box"])]
  locs := ["shelf"]
  params := fun _ => [] }

/-- Concrete per-iteration randomness for witnesses. -/
def iterW : IterRand := {
  labels := ["prop_1"]
  drawss := [[{ verbIdx := 0, refIdx := 0, argRands := [] }]]
  rSkel := 0
  tpl := fun s => "always avoid " ++ s.getD 0 ""
  ego := "You" }

/-- The entry the witness pipeline produces. -/
def entW2 : Entry := {
  id := 0
  sentence := ["You", "must", "always", "avoid", "idling"]
  tl := ["finally", "(", "not", "idle", ")"]
  masked_tl := ["finally", "(", "not", "prop_1", ")"]
  grounded_sentence := ["You", "must", "always", "avoid", "prop_1"]
  lifted_sentence_prop_ids := [0, 0, 0, 0, 1]
  prop_dict := [("prop_1", PropInfo.mk "idle" "idling" [] [])]
  good_trace := [["idle"], [], []]
  bad_trace := [["idle"], ["idle"], ["idle"]] }

/-- C5 witness: the theorem applied to the concrete one-proposition
pipeline. -/
theorem iterW_labels_nodup : iterW.labels.Nodup := by decide

/-- C5 witness (continued): the concrete pipeline reaches the conclusion. -/
theorem c5_witness :
    (entW2.prop_dict.map fun p => atomOf p.2).Nodup :=
  c5_distinct_atoms nlpW vocabW (fun _ => iterW) 1 2 [entW2]
    (fun _ => iterW_labels_nodup) (by decide) entW2 (List.mem_singleton.mpr rfl)

end VLTL

namespace VLTL

/-! ## C2: round-trip substitution on the formula tokens -/

/-- The substitution from the claim: replace each token that is a key of
`prop_dict` by the grounded atom (built from `action_canon` / `args_canon`)
of the proposition stored under it; leave every other token unchanged. -/
def substProps (pd : List (String × PropInfo)) (ts : List String) : List String :=
  ts.map fun t => ((pd.lookup t).map atomOf).getD t

/-- The label pool `prop_1..prop_3` of `build_dataset_entries`
(`max_props = 3`). -/
def LABEL_POOL : List String := ["prop_1", "prop_2", "prop_3"]

/-- A skeleton token is admissible when it is a hole or a literal that is
not a pool label. -/
def stokOkB : STok → Bool
  | STok.lit s => !(LABEL_POOL.contains s)
  | STok.hole _ => true

/-- No literal token of any cataloged skeleton is a pool label. -/
theorem catalog_consts_ok :
    ∀ e ∈ LTL_TEMPLATES_STATE, ∀ t ∈ e.2.2, stokOkB t = true := by decide

theorem catalog_lit_not_pool {e : String × Nat × List STok} {s : String}
    (he : e ∈ LTL_TEMPLATES_STATE) (ht : STok.lit s ∈ e.2.2) : s ∉ LABEL_POOL := by
  have h := catalog_consts_ok e he (STok.lit s) ht
  simp only [stokOkB, Bool.not_eq_true'] at h
  intro hmem
  have h2 : LABEL_POOL.contains s = true := List.elem_iff.mpr hmem
  rw [h2] at h
  cases h

/-- The placeholder names `prop_1 .. prop_3` are pairwise distinct. -/
theorem placeholder_inj3 :
    ∀ i1, i1 < 3 → ∀ i2, i2 < 3 →
      placeholder (i1 + 1) = placeholder (i2 + 1) → i1 = i2 := by decide

theorem placeholder_mem_pool : ∀ i, i < 3 → placeholder (i + 1) ∈ LABEL_POOL := by decide

theorem viableSkels_subset (n : Nat) : viableSkels n ⊆ LTL_TEMPLATES_STATE := by
  unfold viableSkels
  dsimp only []
  split
  · exact fun x hx => List.mem_of_mem_filter hx
  · exact fun x hx => List.mem_of_mem_filter hx

/-- Lookup in an association list with no matching key. -/
theorem lookup_none_of_not_mem {β : Type} {l : List (String × β)} {k : String}
    (h : k ∉ l.map Prod.fst) : l.lookup k = none := by
  induction l with
  | nil => rfl
  | cons a t ih =>
    have h1 : k ≠ a.1 := fun he => h (by simp [he])
    have h2 : k ∉ t.map Prod.fst := fun hm => h (by simp [hm])
    simp [List.lookup, beq_eq_false_iff_ne.mpr h1, ih h2]

/-- Looking up the `j`-th element of a duplicate-free list in the
association list that sends each element to a function of its position. -/
theorem lookup_enumFrom_label {β : Type} (g : Nat → β) :
    ∀ (l : List String) (s j : Nat), l.Nodup → j < l.length →
      ((l.enumFrom s).map fun jl => (jl.2, g jl.1)).lookup (l.getD j "") =
        some (g (s + j)) := by
  intro l
  induction l with
  | nil =>
    intro s j _ hj
    simp at hj
  | cons a t ih =>
    intro s j hnd hj
    rcases List.nodup_cons.mp hnd with ⟨ha, ht⟩
    cases j with
    | zero =>
      simp [List.enumFrom, List.lookup]
    | succ j =>
      have hj2 : j < t.length := by simpa using hj
      have hmem : t.getD j "" ∈ t := by
        rw [List.getD_eq_getElem _ _ hj2]
        exact List.getElem_mem hj2
      have hne : (t.getD j "" == a) = false :=
        beq_eq_false_iff_ne.mpr fun he => ha (he ▸ hmem)
      rw [List.getD_cons_succ]
      simp only [List.enumFrom, List.map_cons, List.lookup, hne]
      rw [ih (s + 1) j ht hj2]
      congr 2
      omega

/-- Looking up a position-generated key in the association list that sends
position `i` to key `f i`. -/
theorem lookup_enumFrom_key {β : Type} (g : String → β) (f : Nat → String) :
    ∀ (l : List String) (s j : Nat), j < l.length →
      (∀ i1 i2, s ≤ i1 → i1 < s + l.length → s ≤ i2 → i2 < s + l.length →
        f i1 = f i2 → i1 = i2) →
      ((l.enumFrom s).map fun jl => (f jl.1, g jl.2)).lookup (f (s + j)) =
        some (g (l.getD j "")) := by
  intro l
  induction l with
  | nil =>
    intro s j hj _
    simp at hj
  | cons a t ih =>
    intro s j hj hinj
    cases j with
    | zero =>
      simp [List.enumFrom, List.lookup]
    | succ j =>
      have hj2 : j < t.length := by simpa using hj
      have hne : (f (s + (j + 1)) == f s) = false := by
        refine beq_eq_false_iff_ne.mpr fun he => ?_
        have h3 := hinj (s + (j + 1)) s (by omega) (by simp only [List.length_cons]; omega)
          (by omega) (by simp only [List.length_cons]; omega) he
        omega
      simp only [List.enumFrom, List.map_cons, List.lookup, hne, List.getD_cons_succ]
      have harg : s + (j + 1) = (s + 1) + j := by omega
      rw [harg, ih (s + 1) j hj2 (fun i1 i2 h1 h2 h3 h4 he =>
        hinj i1 i2 (by omega) (by simp only [List.length_cons] at h2 ⊢; omega) (by omega)
          (by simp only [List.length_cons] at h4 ⊢; omega) he)]

/-- The per-position keys of `prop_dict` are pool labels. -/
theorem pd_keys_in_pool (labelsUsed : List String) (g : String → PropInfo)
    (hlen : labelsUsed.length ≤ 3) :
    ∀ x ∈ (labelsUsed.enum.map fun jl => (placeholder (jl.1 + 1), g jl.2)).map Prod.fst,
      x ∈ LABEL_POOL := by
  intro x hx
  simp only [List.map_map] at hx
  rcases List.mem_map.mp hx with ⟨jl, hjl, rfl⟩
  have hlt : jl.1 < labelsUsed.length :=
    (List.getElem?_eq_some.mp (List.mem_enum_iff_getElem?.mp hjl)).1
  exact placeholder_mem_pool jl.1 (by omega)

/-- C2: for every entry returned by `build_entry_for_props` (labels drawn
from the pool `prop_1..prop_3` without repetition, as `build_dataset_entries`
does), substituting each placeholder of `masked_tl` by the grounded atom of
the proposition stored under it in `prop_dict` yields `tl` exactly. -/
theorem c2_round_trip (nlp : NLP) (params : String → List String)
    (rSkel : Nat) (tpl : List String → String) (ego : String) (idx : Nat)
    (props : List (String × PropInfo)) (e : Entry)
    (hkeys : (props.map Prod.fst).Nodup)
    (hpool : ∀ l ∈ props.map Prod.fst, l ∈ LABEL_POOL)
    (h : buildEntryForProps nlp params rSkel tpl ego idx props = some e) :
    substProps e.prop_dict e.masked_tl = e.tl := by
  unfold buildEntryForProps at h
  cases hv : viableSkels props.length with
  | nil =>
    rw [hv] at h
    cases h
  | cons v0 vs =>
    rw [hv] at h
    dsimp only [] at h
    split at h
    · cases h
    · cases h
      have hskcat : (v0 :: vs).getD (rSkel % (v0 :: vs).length) v0 ∈ LTL_TEMPLATES_STATE := by
        refine viableSkels_subset props.length ?_
        rw [hv]
        have hlt : rSkel % (v0 :: vs).length < (v0 :: vs).length :=
          Nat.mod_lt _ (by simp)
        rw [List.getD_eq_getElem _ _ hlt]
        exact List.getElem_mem hlt
      set sk := (v0 :: vs).getD (rSkel % (v0 :: vs).length) v0 with hskdef
      set labelsUsed := (props.map Prod.fst).take sk.2.1 with hludef
      have hlnd : labelsUsed.Nodup := (List.take_sublist _ _).nodup hkeys
      have hlpool : ∀ l ∈ labelsUsed, l ∈ LABEL_POOL := fun l hl =>
        hpool l (List.mem_of_mem_take hl)
      have hlen3 : labelsUsed.length ≤ 3 :=
        (List.subperm_of_subset hlnd hlpool).length_le
      dsimp only []
      unfold substProps instTokens
      rw [List.map_map, List.map_map]
      refine List.map_congr_left fun t ht => ?_
      cases t with
      | lit s =>
        have hs : s ∉ LABEL_POOL := catalog_lit_not_pool hskcat ht
        have hm1 : (labelsUsed.enum.map fun jl =>
            (jl.2, placeholder (jl.1 + 1))).lookup s = none := by
          refine lookup_none_of_not_mem fun hmem => ?_
          simp only [List.map_map] at hmem
          rcases List.mem_map.mp hmem with ⟨jl, hjl, rfl⟩
          have : jl.2 ∈ labelsUsed := List.getElem?_mem (List.mem_enum_iff_getElem?.mp hjl)
          exact hs (hlpool _ this)
        have hm2 : (labelsUsed.enum.map fun jl =>
            (placeholder (jl.1 + 1), getProp (props.map fun li =>
              (li.1, gerundFix (rawSentence nlp params tpl ego props labelsUsed) li.2))
              jl.2)).lookup s = none := by
          refine lookup_none_of_not_mem fun hmem => ?_
          exact hs (pd_keys_in_pool labelsUsed _ hlen3 s hmem)
        simp only [Function.comp_apply, hm1, Option.getD_none, hm2, Option.map_none']
      | hole j =>
        simp only [Function.comp_apply]
        by_cases hj : j < labelsUsed.length
        · have hm1 := lookup_enumFrom_label (fun i => placeholder (i + 1))
            labelsUsed 0 j hlnd hj
          have hm2 := lookup_enumFrom_key
            (fun l => getProp (props.map fun li =>
              (li.1, gerundFix (rawSentence nlp params tpl ego props labelsUsed) li.2)) l)
            (fun i => placeholder (i + 1)) labelsUsed 0 j hj
            (fun i1 i2 h1 h2 h3 h4 he =>
              placeholder_inj3 i1 (by omega) i2 (by omega) he)
          simp only [Nat.zero_add] at hm1 hm2
          rw [show List.enumFrom 0 labelsUsed = labelsUsed.enum from rfl] at hm1 hm2
          rw [hm1]
          simp only [Option.getD_some]
          rw [hm2]
          simp only [Option.map_some', Option.getD_some]
          have hatom : atomOf (getProp (props.map fun li =>
              (li.1, gerundFix (rawSentence nlp params tpl ego props labelsUsed) li.2))
              (labelsUsed.getD j "")) = atomOf (getProp props (labelsUsed.getD j "")) := by
            unfold getProp
            rw [lookup_map_value]
            cases props.lookup (labelsUsed.getD j "") with
            | none => rfl
            | some v => exact atomOf_gerundFix _ v
          rw [hatom]
          rw [List.getD_eq_getElem labelsUsed "" hj]
          rw [List.getD_eq_getElem _ "" (by simpa using hj), List.getElem_map]
        · have hge : labelsUsed.length ≤ j := by omega
          rw [List.getD_eq_default _ _ hge]
          have hm1 : (labelsUsed.enum.map fun jl =>
              (jl.2, placeholder (jl.1 + 1))).lookup "" = none := by
            refine lookup_none_of_not_mem fun hmem => ?_
            simp only [List.map_map] at hmem
            rcases List.mem_map.mp hmem with ⟨jl, hjl, heq⟩
            have : jl.2 ∈ labelsUsed := List.getElem?_mem (List.mem_enum_iff_getElem?.mp hjl)
            have : ("" : String) ∈ LABEL_POOL := heq ▸ hlpool _ this
            simp [LABEL_POOL] at this
          have hm2 : (labelsUsed.enum.map fun jl =>
              (placeholder (jl.1 + 1), getProp (props.map fun li =>
                (li.1, gerundFix (rawSentence nlp params tpl ego props labelsUsed) li.2))
                jl.2)).lookup "" = none := by
            refine lookup_none_of_not_mem fun hmem => ?_
            have : ("" : String) ∈ LABEL_POOL := pd_keys_in_pool labelsUsed _ hlen3 "" hmem
            simp [LABEL_POOL] at this
          simp only [hm1, Option.getD_none, hm2, Option.map_none']
          rw [List.getD_eq_default _ _ (by simpa using hge)]

end VLTL

namespace VLTL

/-- The sampled propositions that feed the witness entry `entW2`. -/
def propsW : List (String × PropInfo) := [("prop_1", PropInfo.mk "idle" "idle" [] [])]

/-- C2 witness: round-trip substitution on the concrete entry built from
`propsW`. -/
theorem c2_witness : substProps entW2.prop_dict entW2.masked_tl = entW2.tl :=
  c2_round_trip nlpW vocabW.params 0 iterW.tpl "You" 0 propsW entW2
    (by decide) (by decide) (by decide)

/-- The bare verb: first whitespace word of `action_ref`
(`info["action_ref"].split()[0]`). -/
def firstWordOf (s : String) : String := (pySplitWS s).getD 0 ""

/-- C6: the gerund rewrite of `build_entry_for_props`.  First conjunct: the
rewrite fires exactly as claimed - when the bare verb no longer occurs in
the corrected sentence but its gerund does, `action_ref` becomes the
gerund; when the bare verb still occurs, the proposition is unchanged.
Second conjunct: the `prop_dict` of every entry stores the rewritten
propositions (so the segments rebuilt from them are the ones the alignment
used), keyed by placeholder in `labels_used` order. -/
theorem c6_gerund_rewrite (nlp : NLP) (params : String → List String)
    (rSkel : Nat) (tpl : List String → String) (ego : String) (idx : Nat)
    (props : List (String × PropInfo)) (e : Entry)
    (h : buildEntryForProps nlp params rSkel tpl ego idx props = some e) :
    (∀ gRaw : String, ∀ info : PropInfo,
      (pyIn (firstWordOf info.action_ref) gRaw = false ∧
          pyIn (toGerundS (firstWordOf info.action_ref)) gRaw = true →
        gerundFix gRaw info =
          { info with action_ref := toGerundS (firstWordOf info.action_ref) }) ∧
      (pyIn (firstWordOf info.action_ref) gRaw = true → gerundFix gRaw info = info)) ∧
    (∃ n, e.sentence =
        pySplitWS (rawSentence nlp params tpl ego props ((props.map Prod.fst).take n)) ∧
      e.prop_dict =
        ((props.map Prod.fst).take n).enum.map fun jl =>
          (placeholder (jl.1 + 1),
           gerundFix (rawSentence nlp params tpl ego props ((props.map Prod.fst).take n))
             (getProp props jl.2))) := by
  constructor
  · intro gRaw info
    constructor
    · rintro ⟨h1, h2⟩
      simp only [gerundFix, firstWordOf] at h1 h2 ⊢
      rw [h1, h2]
      simp
    · intro h1
      simp only [gerundFix, firstWordOf] at h1 ⊢
      rw [h1]
      simp
  · unfold buildEntryForProps at h
    cases hv : viableSkels props.length with
    | nil =>
      rw [hv] at h
      cases h
    | cons v0 vs =>
      rw [hv] at h
      dsimp only [] at h
      split at h
      · cases h
      · cases h
        refine ⟨((v0 :: vs).getD (rSkel % (v0 :: vs).length) v0).2.1, rfl, ?_⟩
        dsimp only []
        refine List.map_congr_left fun jl hjl => ?_
        have hmem : jl.2 ∈ (props.map Prod.fst).take
            ((v0 :: vs).getD (rSkel % (v0 :: vs).length) v0).2.1 :=
          List.getElem?_mem (List.mem_enum_iff_getElem?.mp hjl)
        have hkey : jl.2 ∈ props.map Prod.fst := List.mem_of_mem_take hmem
        rcases lookup_mem_of_fst hkey with ⟨v, hvl, hvm⟩
        have : getProp (props.map fun li =>
            (li.1, gerundFix (rawSentence nlp params tpl ego props
              ((props.map Prod.fst).take
                ((v0 :: vs).getD (rSkel % (v0 :: vs).length) v0).2.1)) li.2)) jl.2 =
            gerundFix (rawSentence nlp params tpl ego props
              ((props.map Prod.fst).take
                ((v0 :: vs).getD (rSkel % (v0 :: vs).length) v0).2.1))
              (getProp props jl.2) := by
          unfold getProp
          rw [lookup_map_value, hvl]
          rfl
        rw [this]

end VLTL

namespace VLTL

/-- C6 witness: in the concrete pipeline the bare verb `idle` disappears
from the corrected sentence (which reads `... avoid idling`) while its
gerund appears, so the stored `action_ref` is rewritten to the gerund. -/
theorem c6_witness :
    gerundFix (rawSentence nlpW vocabW.params iterW.tpl "You" propsW ["prop_1"])
      (PropInfo.mk "idle" "idle" [] []) =
      { PropInfo.mk "idle" "idle" [] [] with
          action_ref := toGerundS (firstWordOf "idle") } := by
  have hth := c6_gerund_rewrite nlpW vocabW.params 0 iterW.tpl "You" 0 propsW entW2 (by decide)
  exact (hth.1 (rawSentence nlpW vocabW.params iterW.tpl "You" propsW ["prop_1"])
    (PropInfo.mk "idle" "idle" [] [])).1 ⟨by decide, by decide⟩

/-- A successful prefix match never exceeds the remaining sentence. -/
theorem prefMatch_length (nlp : NLP) :
    ∀ seq toks : List String, prefMatch nlp seq toks = true → seq.length ≤ toks.length := by
  intro seq
  induction seq with
  | nil =>
    intro toks _
    simp
  | cons s ss ih =>
    intro toks h
    cases toks with
    | nil => cases h
    | cons t ts =>
      simp only [prefMatch, Bool.and_eq_true] at h
      simpa using ih ts h.2

/-- A successful `findSome?` arises from some list member. -/
theorem findSome?_mem {β γ : Type} (f : β → Option γ) :
    ∀ (l : List β) (y : γ), l.findSome? f = some y → ∃ x ∈ l, f x = some y := by
  intro l
  induction l with
  | nil =>
    intro y h
    cases h
  | cons a as ih =>
    intro y h
    cases hf : f a with
    | some v =>
      rw [List.findSome?_cons, hf] at h
      cases h
      exact ⟨a, List.mem_cons_self _ _, hf⟩
    | none =>
      rw [List.findSome?_cons, hf] at h
      rcases ih y h with ⟨x, hx, hfx⟩
      exact ⟨x, List.mem_cons_of_mem _ hx, hfx⟩

/-- What a successful `findSeg` returns. -/
theorem findSeg_spec (nlp : NLP) (segs : List (Nat × String × List String))
    (toks : List String) (pid : Nat) (ph : String) (L : Nat)
    (h : findSeg nlp segs toks = some (pid, ph, L)) :
    ∃ s ∈ segs, pid = s.1 ∧ ph = s.2.1 ∧ L = s.2.2.length ∧ L ≤ toks.length := by
  rcases findSome?_mem _ _ _ h with ⟨s, hs, hf⟩
  by_cases hp : prefMatch nlp s.2.2 toks = true
  · rw [if_pos hp] at hf
    cases hf
    exact ⟨s, hs, rfl, rfl, rfl, prefMatch_length nlp _ _ hp⟩
  · rw [if_neg hp] at hf
    cases hf

/-- Shape of the alignment output: one id per sentence token, the masked
sentence no longer than the sentence, ids zero or segment ids, masked
tokens placeholders or copied sentence tokens. -/
theorem alignLoopF_shape (nlp : NLP) (segs : List (Nat × String × List String)) :
    ∀ fuel toks ids msk, alignLoopF nlp segs fuel toks = some (ids, msk) →
      ids.length = toks.length ∧ msk.length ≤ toks.length ∧
      (∀ x ∈ ids, x = 0 ∨ ∃ s ∈ segs, x = s.1) ∧
      (∀ t ∈ msk, (∃ s ∈ segs, t = s.2.1) ∨ t ∈ toks) := by
  intro fuel
  induction fuel with
  | zero =>
    intro toks ids msk h
    cases toks with
    | nil =>
      cases h
      refine ⟨rfl, by simp, ?_, ?_⟩ <;> intro x hx <;> cases hx
    | cons t rest => cases h
  | succ fuel ih =>
    intro toks ids msk h
    cases toks with
    | nil =>
      cases h
      refine ⟨rfl, by simp, ?_, ?_⟩ <;> intro x hx <;> cases hx
    | cons t rest =>
      simp only [alignLoopF] at h
      cases hfs : findSeg nlp segs (t :: rest) with
      | some pls =>
        rcases pls with ⟨pid, ph, L⟩
        rw [hfs] at h
        dsimp only [] at h
        by_cases hL : L = 0
        · rw [if_pos hL] at h
          cases h
        · rw [if_neg hL] at h
          cases hrec : alignLoopF nlp segs fuel ((t :: rest).drop L) with
          | none =>
            rw [hrec] at h
            cases h
          | some p =>
            rcases p with ⟨ids2, msk2⟩
            rw [hrec] at h
            cases h
            obtain ⟨hlen, hmlen, hids, hmsk⟩ := ih _ _ _ hrec
            rcases findSeg_spec nlp segs (t :: rest) pid ph L hfs with
              ⟨s, hsmem, hpid, hph, hLlen, hLle⟩
            rw [List.length_drop] at hlen hmlen
            refine ⟨?_, ?_, ?_, ?_⟩
            · simp only [List.length_append, List.length_replicate, hlen]
              simp only [List.length_cons] at hLle ⊢
              omega
            · simp only [List.length_cons] at hmlen hLle ⊢
              omega
            · intro x hx
              rcases List.mem_append.mp hx with hx | hx
              · exact Or.inr ⟨s, hsmem, (List.eq_of_mem_replicate hx).trans hpid⟩
              · exact hids x hx
            · intro u hu
              rcases List.mem_cons.mp hu with rfl | hu
              · exact Or.inl ⟨s, hsmem, hph⟩
              · rcases hmsk u hu with h1 | h1
                · exact Or.inl h1
                · exact Or.inr (List.drop_subset _ _ h1)
      | none =>
        rw [hfs] at h
        dsimp only [] at h
        cases hrec : alignLoopF nlp segs fuel rest with
        | none =>
          rw [hrec] at h
          cases h
        | some p =>
          rcases p with ⟨ids2, msk2⟩
          rw [hrec] at h
          cases h
          obtain ⟨hlen, hmlen, hids, hmsk⟩ := ih _ _ _ hrec
          refine ⟨?_, ?_, ?_, ?_⟩
          · simp [hlen]
          · simp only [List.length_cons]
            omega
          · intro x hx
            rcases List.mem_cons.mp hx with rfl | hx
            · exact Or.inl rfl
            · exact hids x hx
          · intro u hu
            rcases List.mem_cons.mp hu with rfl | hu
            · exact Or.inr (List.mem_cons_self _ _)
            · rcases hmsk u hu with h1 | h1
              · exact Or.inl h1
              · exact Or.inr (List.mem_cons_of_mem _ h1)

/-- C10: in every entry built by `build_entry_for_props`, the id array has
exactly one id per sentence token, every id is at most the number of
propositions used, the masked sentence is never longer than the sentence,
and each masked token is a placeholder of a used proposition or a sentence
token copied verbatim. -/
theorem c10_alignment_shape (nlp : NLP) (params : String → List String)
    (rSkel : Nat) (tpl : List String → String) (ego : String) (idx : Nat)
    (props : List (String × PropInfo)) (e : Entry)
    (h : buildEntryForProps nlp params rSkel tpl ego idx props = some e) :
    e.lifted_sentence_prop_ids.length = e.sentence.length ∧
    (∀ x ∈ e.lifted_sentence_prop_ids, x ≤ e.prop_dict.length) ∧
    e.grounded_sentence.length ≤ e.sentence.length ∧
    (∀ t ∈ e.grounded_sentence,
      (∃ j, j < e.prop_dict.length ∧ t = placeholder (j + 1)) ∨ t ∈ e.sentence) := by
  unfold buildEntryForProps at h
  cases hv : viableSkels props.length with
  | nil =>
    rw [hv] at h
    cases h
  | cons v0 vs =>
    rw [hv] at h
    dsimp only [] at h
    split at h
    · cases h
    · cases h
      rename_i halign
      obtain ⟨hlen, hmlen, hids, hmsk⟩ := alignLoopF_shape nlp _ _ _ _ _ halign
      dsimp only []
      have hpd : (((props.map Prod.fst).take
          ((v0 :: vs).getD (rSkel % (v0 :: vs).length) v0).2.1).enum.map fun jl =>
            (placeholder (jl.1 + 1),
             getProp (props.map fun li =>
               (li.1, gerundFix (rawSentence nlp params tpl ego props
                 ((props.map Prod.fst).take
                   ((v0 :: vs).getD (rSkel % (v0 :: vs).length) v0).2.1)) li.2)) jl.2)).length =
          ((props.map Prod.fst).take
            ((v0 :: vs).getD (rSkel % (v0 :: vs).length) v0).2.1).length := by
        rw [List.length_map, List.enum_length]
      refine ⟨hlen, ?_, hmlen, ?_⟩
      · intro x hx
        rcases hids x hx with rfl | ⟨s, hs, rfl⟩
        · omega
        · rcases List.mem_map.mp hs with ⟨jl, hjl, rfl⟩
          have hlt : jl.1 < ((props.map Prod.fst).take
              ((v0 :: vs).getD (rSkel % (v0 :: vs).length) v0).2.1).length :=
            (List.getElem?_eq_some.mp (List.mem_enum_iff_getElem?.mp hjl)).1
          rw [hpd]
          omega
      · intro u hu
        rcases hmsk u hu with ⟨s, hs, rfl⟩ | h1
        · rcases List.mem_map.mp hs with ⟨jl, hjl, rfl⟩
          have hlt : jl.1 < ((props.map Prod.fst).take
              ((v0 :: vs).getD (rSkel % (v0 :: vs).length) v0).2.1).length :=
            (List.getElem?_eq_some.mp (List.mem_enum_iff_getElem?.mp hjl)).1
          refine Or.inl ⟨jl.1, ?_, rfl⟩
          rw [hpd]
          omega
        · exact Or.inr h1

/-- C10 witness: the shape facts on the concrete entry `entW2`. -/
theorem c10_witness :
    entW2.lifted_sentence_prop_ids.length = entW2.sentence.length ∧
    (∀ x ∈ entW2.lifted_sentence_prop_ids, x ≤ entW2.prop_dict.length) ∧
    entW2.grounded_sentence.length ≤ entW2.sentence.length ∧
    (∀ t ∈ entW2.grounded_sentence,
      (∃ j, j < entW2.prop_dict.length ∧ t = placeholder (j + 1)) ∨ t ∈ entW2.sentence) :=
  c10_alignment_shape nlpW vocabW.params 0 iterW.tpl "You" 0 propsW entW2 (by decide)

end VLTL

namespace VLTL

/-- The gerund-conversion condition of one loop iteration at trigger
position `i` and target position `p`: the token at `i` lowercases to a
trigger word, the punctuation-skipping scan from `i + 1` lands on `p`,
the token at `p` is neither a placeholder nor already an `ing` form, and
its POS tag is verb-like or noun-like. -/
def stepCondB (tags : List (String × String)) (i p : Nat) : Bool :=
  decide (pyLower (tags.getD i ("", "")).1 ∈ REQUIRES_GERUND) &&
  (firstNonPunct tags (i + 1) == some p) &&
  !(isPlaceholderTok (tags.getD p ("", "")).1 ||
    pyEndsWith (pyLower (tags.getD p ("", "")).1) "ing") &&
  decide ((tags.getD p ("", "")).2 ∈ GERUND_TAGS)

/-- One gerund step never changes the number of tokens. -/
theorem gerundStep_length (tags : List (String × String)) (toks : List String) (i : Nat) :
    (gerundStep tags toks i).length = toks.length := by
  unfold gerundStep
  split
  · dsimp only []
    split
    · split
      · rfl
      · split
        · exact List.length_set toks _ _
        · rfl
    · rfl
  · rfl

/-- What one gerund step leaves at position `p`. -/
theorem gerundStep_getD (tags : List (String × String)) (toks : List String) (i p : Nat)
    (hp : p < toks.length) :
    (gerundStep tags toks i).getD p "" =
      if stepCondB tags i p then toGerundS (pyLower (tags.getD p ("", "")).1)
      else toks.getD p "" := by
  unfold gerundStep
  by_cases h1 : pyLower (tags.getD i ("", "")).1 ∈ REQUIRES_GERUND
  · rw [if_pos h1]
    cases hj : firstNonPunct tags (i + 1) with
    | none => simp [stepCondB, hj, h1, -List.getD_eq_getElem?_getD]
    | some j =>
      dsimp only []
      by_cases hjp : j = p
      · subst hjp
        by_cases h2 : (isPlaceholderTok (tags.getD j ("", "")).1 ||
            pyEndsWith (pyLower (tags.getD j ("", "")).1) "ing") = true
        · rw [if_pos h2]
          rw [Bool.or_eq_true] at h2
          rcases h2 with h | h <;>
            simp [stepCondB, hj, h1, h, -List.getD_eq_getElem?_getD]
        · rw [if_neg h2]
          simp only [Bool.or_eq_true, not_or, Bool.not_eq_true] at h2
          by_cases h3 : (tags.getD j ("", "")).2 ∈ GERUND_TAGS
          · rw [if_pos h3]
            rw [List.getD_eq_getElem?_getD, List.getElem?_set_self (by exact hp)]
            simp [stepCondB, hj, h1, h2.1, h2.2, h3, -List.getD_eq_getElem?_getD]
          · rw [if_neg h3]
            simp [stepCondB, hj, h1, h3, -List.getD_eq_getElem?_getD]
      · split
        · simp [stepCondB, hj, hjp, -List.getD_eq_getElem?_getD]
        · split
          · rw [List.getD_eq_getElem?_getD, List.getElem?_set_ne hjp,
              ← List.getD_eq_getElem?_getD]
            simp [stepCondB, hj, hjp, -List.getD_eq_getElem?_getD]
          · simp [stepCondB, hj, hjp, -List.getD_eq_getElem?_getD]
  · rw [if_neg h1]
    simp [stepCondB, h1, -List.getD_eq_getElem?_getD]

/-- The gerund fold never changes the number of tokens. -/
theorem foldl_gerundStep_length (tags : List (String × String)) :
    ∀ (l : List Nat) (toks : List String),
      (l.foldl (gerundStep tags) toks).length = toks.length := by
  intro l
  induction l with
  | nil => intro toks; rfl
  | cons i l ih =>
    intro toks
    rw [List.foldl_cons, ih]
    exact gerundStep_length tags toks i

/-- What the gerund fold leaves at position `p`, for any list of trigger
positions. -/
theorem foldl_gerundStep_getD (tags : List (String × String)) :
    ∀ (l : List Nat) (toks : List String) (p : Nat), p < toks.length →
      (l.foldl (gerundStep tags) toks).getD p "" =
        if l.any (fun i => stepCondB tags i p) then
          toGerundS (pyLower (tags.getD p ("", "")).1)
        else toks.getD p "" := by
  intro l
  induction l with
  | nil =>
    intro toks p hp
    simp
  | cons i l ih =>
    intro toks p hp
    have hlen := gerundStep_length tags toks i
    rw [List.foldl_cons, ih (gerundStep tags toks i) p (by rw [hlen]; exact hp),
      gerundStep_getD tags toks i p hp]
    by_cases hc : stepCondB tags i p = true
    · simp [hc]
    · simp [hc]

/-- C7: the gerund-agreement pass of `correct_sentence` keeps the token
count and rewrites the token at a position `p` to the gerund of its
lowercase form exactly when some trigger position `i` in the scanned range
lowercases to a trigger word and its punctuation-skipping successor scan
lands on `p`, with the token at `p` neither a placeholder nor already an
`ing` form and its POS tag verb-like or noun-like; every other token is
left unchanged. -/
theorem c7_gerund_agreement (tags : List (String × String)) (toks : List String) (p : Nat)
    (hp : p < toks.length) :
    (gerundPhase tags toks).length = toks.length ∧
    (gerundPhase tags toks).getD p "" =
      if (List.range (tags.length - 1)).any (fun i => stepCondB tags i p) then
        toGerundS (pyLower (tags.getD p ("", "")).1)
      else toks.getD p "" :=
  ⟨foldl_gerundStep_length tags _ toks, foldl_gerundStep_getD tags _ toks p hp⟩

/-- C7 witness: with `run` tagged `NN` right after the trigger `avoid`,
the pass rewrites position 1 to the gerund. -/
theorem c7_witness :
    (gerundPhase [("avoid", "VB"), ("run", "NN")] ["avoid", "run"]).length =
      (["avoid", "run"] : List String).length ∧
    (gerundPhase [("avoid", "VB"), ("run", "NN")] ["avoid", "run"]).getD 1 "" =
      (if (List.range (([("avoid", "VB"), ("run", "NN")] : List (String × String)).length - 1)).any
          (fun i => stepCondB [("avoid", "VB"), ("run", "NN")] i 1) then
        toGerundS (pyLower (([("avoid", "VB"), ("run", "NN")] :
          List (String × String)).getD 1 ("", "")).1)
      else (["avoid", "run"] : List String).getD 1 "") :=
  c7_gerund_agreement [("avoid", "VB"), ("run", "NN")] ["avoid", "run"] 1 (by decide)

end VLTL
